import Mathlib

/-!
# Billed: the date codec, the status labels and the new-bill submit guard

Shallow embedding of `src/app/format.js` (`formatDate`, `MONTHS_TO_NUMBER`,
`parseDate`, `formatStatus`) together with the part of the JavaScript platform
these functions call: `Date`, `Intl.DateTimeFormat`, `parseInt`, `split`,
`substr`.

Conventions of the embedding.

* A JavaScript string is a list of characters; the entry points take and
  return `String`.
* A JavaScript number that is an integer is an `Int`, and `NaN` is `none`.
  Integers are exact (no rounding to binary64).
* A `Date` is its time value in milliseconds since the epoch, `none` for an
  Invalid Date.  The calendar functions follow ECMA-262 (`Day`, `DayFromYear`,
  `YearFromTime`, `MonthFromTime`, `DateFromTime`, `MakeDay`, `TimeClip`,
  `LocalTime`, `UTC`).
* The host environment is a parameter, `Host`: the offset of its time zone
  from UTC.  `new Date("YYYY-MM-DD")` is midnight UTC, whereas
  `Intl.DateTimeFormat` (called without a `timeZone` option),
  `new Date(year, month, day)` and the accessors `getFullYear`, `getMonth`,
  `getDate` work in host-local time.  The offset is constant over time
  (daylight saving changes are not embedded).
* The locale data of `Intl.DateTimeFormat('fr', ...)` is the CLDR French
  Gregorian data: abbreviated month names, numeric year, two-digit day.
* The result of `formatDate` is an `Outcome`: the string returned, an
  exception raised, or an input whose reading by `Date` is outside the
  embedding, about which nothing is stated.
-/

namespace Billed

/-! ## ECMA-262 calendar arithmetic -/

/-- Number of milliseconds in a day (ECMA-262 `msPerDay`). -/
def msPerDay : Int := 86400000

/-- Day number of a time value (ECMA-262 `Day(t) = floor(t / msPerDay)`). -/
def dayOfTime (t : Int) : Int := t / msPerDay

/-- Leap years of the proleptic Gregorian calendar (ECMA-262 `DaysInYear`). -/
def isLeapYear (y : Int) : Bool :=
  (y % 4 == 0 && y % 100 != 0) || y % 400 == 0

/-- Day number of 1 January of year `y` (ECMA-262 `DayFromYear`). -/
def dayFromYear (y : Int) : Int :=
  365 * (y - 1970) + (y - 1969) / 4 - (y - 1901) / 100 + (y - 1601) / 400

/-- One extra day in a leap year (ECMA-262 `InLeapYear`). -/
def leapDay (leap : Bool) : Int := if leap then 1 else 0

/-- Number of days of the year that precede month `m` (0 = January), following
the table of ECMA-262 `MonthFromTime`; `m = 12` gives the length of the year. -/
def daysBeforeMonth (leap : Bool) (m : Int) : Int :=
  if m ≤ 0 then 0
  else if m = 1 then 31
  else if m = 2 then 59 + leapDay leap
  else if m = 3 then 90 + leapDay leap
  else if m = 4 then 120 + leapDay leap
  else if m = 5 then 151 + leapDay leap
  else if m = 6 then 181 + leapDay leap
  else if m = 7 then 212 + leapDay leap
  else if m = 8 then 243 + leapDay leap
  else if m = 9 then 273 + leapDay leap
  else if m = 10 then 304 + leapDay leap
  else if m = 11 then 334 + leapDay leap
  else 365 + leapDay leap

/-- Length of month `m` (0 = January) of year `y`. -/
def daysInMonth (y m : Int) : Int :=
  daysBeforeMonth (isLeapYear y) (m + 1) - daysBeforeMonth (isLeapYear y) m

/-- Day number of the given year, month (0-based, any integer) and day of
month (any integer): ECMA-262 `MakeDay`, with the carry from the month into
the year and the day counted from the first of the month. -/
def makeDay (year month date : Int) : Int :=
  let ym := year + month / 12
  let mn := month % 12
  dayFromYear ym + daysBeforeMonth (isLeapYear ym) mn + date - 1

/-- Year that contains day number `d`: the largest `y` with
`dayFromYear y ≤ d` (ECMA-262 `YearFromTime`), computed from the mean year
length of 146097/400 days and corrected by at most one year. -/
def yearFromDay (d : Int) : Int :=
  let e := 1970 + (400 * d) / 146097
  if dayFromYear (e + 1) ≤ d then e + 1
  else if d < dayFromYear e then e - 1
  else e

/-- Month (0 = January) in which day `n` of a year falls, day 0 being
1 January (the table of ECMA-262 `MonthFromTime`). -/
def monthInYear (leap : Bool) (n : Int) : Int :=
  if n < daysBeforeMonth leap 1 then 0
  else if n < daysBeforeMonth leap 2 then 1
  else if n < daysBeforeMonth leap 3 then 2
  else if n < daysBeforeMonth leap 4 then 3
  else if n < daysBeforeMonth leap 5 then 4
  else if n < daysBeforeMonth leap 6 then 5
  else if n < daysBeforeMonth leap 7 then 6
  else if n < daysBeforeMonth leap 8 then 7
  else if n < daysBeforeMonth leap 9 then 8
  else if n < daysBeforeMonth leap 10 then 9
  else if n < daysBeforeMonth leap 11 then 10
  else 11

/-- Month (0 = January) that contains day number `d` (ECMA-262
`MonthFromTime`). -/
def monthFromDay (d : Int) : Int :=
  monthInYear (isLeapYear (yearFromDay d)) (d - dayFromYear (yearFromDay d))

/-- Day of the month (1-based) of day number `d` (ECMA-262 `DateFromTime`). -/
def dateFromDay (d : Int) : Int :=
  let y := yearFromDay d
  d - dayFromYear y - daysBeforeMonth (isLeapYear y) (monthFromDay d) + 1

/-- Largest magnitude of a valid time value (ECMA-262 `TimeClip`). -/
def maxTime : Int := 8640000000000000

/-- ECMA-262 `TimeClip`: a time value out of range is `NaN`. -/
def timeClip (t : Int) : Option Int :=
  if -maxTime ≤ t ∧ t ≤ maxTime then some t else none

/-! ## The host environment -/

/-- The host environment: the offset of its time zone in minutes east of UTC,
constant over time, within the range of the zones in use (UTC-12:00 to
UTC+14:00). -/
structure Host where
  offset : Int
  offset_ge : -720 ≤ offset
  offset_le : offset ≤ 840

/-- A host on UTC. -/
def hostUTC : Host := { offset := 0, offset_ge := by decide, offset_le := by decide }

/-- A host one hour east of UTC (Paris in winter). -/
def hostUTCPlus1 : Host := { offset := 60, offset_ge := by decide, offset_le := by decide }

/-- A host five hours west of UTC (New York in winter). -/
def hostUTCMinus5 : Host := { offset := -300, offset_ge := by decide, offset_le := by decide }

/-- Number of milliseconds in a minute. -/
def msPerMinute : Int := 60000

/-- Local time of a time value on the host (ECMA-262 `LocalTime`). -/
def localTime (host : Host) (t : Int) : Int := t + host.offset * msPerMinute

/-- Time value of a local time on the host (ECMA-262 `UTC`). -/
def utcTime (host : Host) (t : Int) : Int := t - host.offset * msPerMinute

/-! ## The `Date` object -/

/-- A `Date`: its time value in milliseconds, `none` for an Invalid Date. -/
abbrev JSDate := Option Int

/-- The call `new Date(year, month, day)`: a `NaN` argument gives an Invalid
Date, a year from 0 to 99 means 1900 + year, the time of day is midnight in
host-local time. -/
def dateOfFields (host : Host) (year month day : Option Int) : JSDate :=
  match year, month, day with
  | some y, some m, some dt =>
    let yr := if 0 ≤ y ∧ y ≤ 99 then 1900 + y else y
    timeClip (utcTime host (makeDay yr m dt * msPerDay))
  | _, _, _ => none

/-- The method `getFullYear()`, in host-local time; `NaN` on an Invalid
Date. -/
def getFullYear (host : Host) (date : JSDate) : Option Int :=
  date.map fun t => yearFromDay (dayOfTime (localTime host t))

/-- The method `getMonth()` (0 = January), in host-local time; `NaN` on an
Invalid Date. -/
def getMonth (host : Host) (date : JSDate) : Option Int :=
  date.map fun t => monthFromDay (dayOfTime (localTime host t))

/-- The method `getDate()` (day of the month), in host-local time; `NaN` on an
Invalid Date. -/
def getDate (host : Host) (date : JSDate) : Option Int :=
  date.map fun t => dateFromDay (dayOfTime (localTime host t))

/-- The subtraction `a - b` of two dates: the difference of the time values,
`NaN` as soon as one of them is an Invalid Date. -/
def dateSub (a b : JSDate) : Option Int :=
  match a, b with
  | some x, some y => some (x - y)
  | _, _ => none

/-- The order of two dates by time value; nothing is earlier or later than an
Invalid Date. -/
def earlier (a b : JSDate) : Prop :=
  match a, b with
  | some x, some y => x < y
  | _, _ => False

instance earlierDecidable (a b : JSDate) : Decidable (earlier a b) :=
  match a, b with
  | some x, some y => inferInstanceAs (Decidable (x < y))
  | some _, none => isFalse fun h => h
  | none, _ => isFalse fun h => h

/-! ## Strings and numbers -/

/-- The space character U+0020. -/
def space : Char := Char.ofNat 32

/-- White space skipped by `parseInt` (ECMA-262 `StrWhiteSpaceChar`: white
space and line terminators). -/
def isStrWhiteSpace (c : Char) : Bool :=
  let n := c.toNat
  n = 9 || n = 10 || n = 11 || n = 12 || n = 13 || n = 32 || n = 160 || n = 5760 ||
    (8192 ≤ n && n ≤ 8202) || n = 8232 || n = 8233 || n = 8239 || n = 8287 ||
    n = 12288 || n = 65279

/-- Value of a character as a digit in the given radix, if it is one. -/
def digitValue (radix : Nat) (c : Char) : Option Nat :=
  let n := c.toNat
  let v := if 48 ≤ n ∧ n ≤ 57 then n - 48
    else if 97 ≤ n ∧ n ≤ 122 then n - 87
    else if 65 ≤ n ∧ n ≤ 90 then n - 55
    else radix
  if v < radix then some v else none

/-- Digits of the longest prefix of the string made of digits of the radix. -/
def takeDigits (radix : Nat) : List Char → List Nat
  | [] => []
  | c :: cs =>
    match digitValue radix c with
    | some v => v :: takeDigits radix cs
    | none => []

/-- Value of a list of digits, most significant first. -/
def digitsValue (radix : Nat) (ds : List Nat) : Nat :=
  ds.foldl (fun acc v => acc * radix + v) 0

/-- The sign read by `parseInt`: a leading `-` or `+` and the rest of the
string. -/
def readSign (s : List Char) : Int × List Char :=
  match s with
  | c :: rest => if c = '-' then (-1, rest) else if c = '+' then (1, rest) else (1, s)
  | [] => (1, s)

/-- The radix read by `parseInt` when none is given: 16 after a prefix `0x`
or `0X`, which is removed, and 10 otherwise. -/
def readRadix (s : List Char) : Nat × List Char :=
  match s with
  | c :: x :: rest => if c = '0' ∧ (x = 'x' ∨ x = 'X') then (16, rest) else (10, s)
  | _ => (10, s)

/-- The global `parseInt(string)` without a radix: leading white space is
skipped, a sign is read, a `0x` or `0X` prefix selects radix 16 and otherwise
the radix is 10, and the longest prefix of digits is the value; `NaN` when
there is no digit. -/
def parseInt (s : List Char) : Option Int :=
  let signed := readSign (s.dropWhile isStrWhiteSpace)
  let prefixed := readRadix signed.2
  let ds := takeDigits prefixed.1 prefixed.2
  if ds = [] then none else some (signed.1 * (digitsValue prefixed.1 ds : Int))

/-- Conversion of a number to a string, as done by a template literal. -/
def numberToString (x : Option Int) : List Char :=
  match x with
  | none => "NaN".toList
  | some n => if n < 0 then '-' :: Nat.toDigits 10 n.natAbs else Nat.toDigits 10 n.toNat

/-- Conversion of a possibly undefined string to a string, as done by a
template literal or a property access. -/
def stringOrUndefined (x : Option (List Char)) : List Char :=
  match x with
  | none => "undefined".toList
  | some s => s

/-- The method `split(sep)` with a one-character separator: the pieces between
the occurrences of the separator, the empty pieces included. -/
def split (sep : Char) : List Char → List (List Char)
  | [] => [[]]
  | c :: cs =>
    if c = sep then [] :: split sep cs
    else
      match split sep cs with
      | [] => [[c]]
      | w :: ws => (c :: w) :: ws

/-- The method `charAt(i)`: the character at index `i` as a string, the empty
string past the end. -/
def charAt (s : List Char) (i : Nat) : List Char := (s.drop i).take 1

/-- The method `slice(i)` with one non-negative argument. -/
def slice (s : List Char) (i : Nat) : List Char := s.drop i

/-- The method `substr(start, length)` with non-negative arguments. -/
def substr (s : List Char) (start length : Nat) : List Char := (s.drop start).take length

/-- The method `toUpperCase()`, on the letters a to z. -/
def toUpperCase (s : List Char) : List Char := s.map Char.toUpper

/-! ## `Intl.DateTimeFormat('fr', ...)` -/

/-- Abbreviated French month names of the CLDR (format style), month 0 being
January: the output of the option `month: 'short'`. -/
def frShortMonth (m : Int) : List Char :=
  if m = 0 then "janv.".toList
  else if m = 1 then "févr.".toList
  else if m = 2 then "mars".toList
  else if m = 3 then "avr.".toList
  else if m = 4 then "mai".toList
  else if m = 5 then "juin".toList
  else if m = 6 then "juil.".toList
  else if m = 7 then "août".toList
  else if m = 8 then "sept.".toList
  else if m = 9 then "oct.".toList
  else if m = 10 then "nov.".toList
  else "déc.".toList

/-- Two decimal digits of a number below 100. -/
def twoDigits (n : Nat) : List Char := [Nat.digitChar (n / 10), Nat.digitChar (n % 10)]

/-- Output of the option `year: 'numeric'` on a valid date: the year of the
host-local date in decimal, a year `y` at or before 0 being displayed as
`1 - y` (ECMA-402, FormatDateTimePattern). -/
def formatYearNumeric (host : Host) (t : Int) : List Char :=
  let y := yearFromDay (dayOfTime (localTime host t))
  Nat.toDigits 10 (if y ≤ 0 then 1 - y else y).toNat

/-- Output of the option `month: 'short'` on a valid date: the abbreviated
name of the month of the host-local date. -/
def formatMonthShort (host : Host) (t : Int) : List Char :=
  frShortMonth (monthFromDay (dayOfTime (localTime host t)))

/-- Output of the option `day: '2-digit'` on a valid date: the day of the
month of the host-local date, on two digits. -/
def formatDay2Digit (host : Host) (t : Int) : List Char :=
  twoDigits (dateFromDay (dayOfTime (localTime host t))).toNat

/-- Result of a call in the embedding: the value returned, an exception
raised, or an input outside the embedded part of the platform, about which
nothing is stated. -/
inductive Outcome (α : Type) where
  | returns (value : α)
  | raises
  | outside
deriving DecidableEq, Repr

/-- The call `new Date(dateStr)` on a date-only string `YYYY-MM-DD` (four, two
and two decimal digits): midnight UTC of that day when the month is from 01
to 12 and the day from 01 to 31, a day past the end of the month running into
the next month, and otherwise an Invalid Date.  The other string forms that
`Date` reads are outside the embedding: the result is `none`. -/
def dateOfString (s : List Char) : Option JSDate :=
  match s with
  | [y3, y2, y1, y0, s1, m1, m0, s2, d1, d0] =>
    match takeDigits 10 [y3, y2, y1, y0], takeDigits 10 [m1, m0], takeDigits 10 [d1, d0] with
    | [a, b, c, d], [e, f], [g, h] =>
      let y : Int := digitsValue 10 [a, b, c, d]
      let m : Int := digitsValue 10 [e, f]
      let dt : Int := digitsValue 10 [g, h]
      if s1 = '-' ∧ s2 = '-' then
        some (if 1 ≤ m ∧ m ≤ 12 ∧ 1 ≤ dt ∧ dt ≤ 31 then
          timeClip (makeDay y (m - 1) dt * msPerDay) else none)
      else none
    | _, _, _ => none
  | _ => none

/-! ## `src/app/format.js` -/

/-- The function `formatDate` on the characters of its argument.  On an
Invalid Date the first call of `format` raises a `RangeError`. -/
def formatDateChars (host : Host) (dateStr : List Char) : Outcome (List Char) :=
  match dateOfString dateStr with
  | none => Outcome.outside
  | some none => Outcome.raises
  | some (some date) =>
    let ye := formatYearNumeric host date
    let mo := formatMonthShort host date
    let da := formatDay2Digit host date
    let month := toUpperCase (charAt mo 0) ++ slice mo 1
    Outcome.returns (numberToString (parseInt da) ++ [space] ++ substr month 0 3 ++ ['.', space]
      ++ substr ye 2 4)

/-- The function `formatDate` of `format.js`. -/
def formatDate (host : Host) (dateStr : String) : Outcome String :=
  match formatDateChars host dateStr.toList with
  | Outcome.returns s => Outcome.returns (String.mk s)
  | Outcome.raises => Outcome.raises
  | Outcome.outside => Outcome.outside

/-- The properties of the object literal `MONTHS_TO_NUMBER`, as written in
the source, in order. -/
def monthsLiteral : List (String × Nat) :=
  [("Jan.", 0), ("Fév.", 1), ("Mar.", 2), ("Avr.", 3), ("Mai.", 4), ("Jui.", 5),
   ("Jui.", 6), ("Aoû.", 7), ("Sep.", 8), ("Oct.", 9), ("Nov.", 10), ("Déc.", 11)]

/-- Definition of one property of an object: a key already present keeps its
place and takes the new value, a new key is added at the end. -/
def defineProperty (obj : List (String × Nat)) (kv : String × Nat) : List (String × Nat) :=
  if obj.any (fun p => p.1 == kv.1) then
    obj.map (fun p => if p.1 == kv.1 then (p.1, kv.2) else p)
  else obj ++ [kv]

/-- Evaluation of an object literal: its properties are defined one after the
other, so that a repeated key keeps its last value. -/
def objectOfLiteral (props : List (String × Nat)) : List (String × Nat) :=
  props.foldl defineProperty []

/-- The object `MONTHS_TO_NUMBER` of `format.js`: its own properties. -/
def MONTHS_TO_NUMBER : List (String × Nat) := objectOfLiteral monthsLiteral

/-- The property access `obj[key]` converted to a number: the value of the own
property, `NaN` when there is none (the inherited properties of a plain object
are functions and objects, whose conversion to a number is `NaN`). -/
def getProperty (obj : List (String × Nat)) (key : String) : Option Int :=
  (obj.find? (fun p => p.1 == key)).map fun p => (p.2 : Int)

/-- The function `parseDate` on the characters of its argument. -/
def parseDateChars (host : Host) (date : List Char) : JSDate :=
  let fullDate := split space date
  let year := parseInt ("20".toList ++ stringOrUndefined fullDate[2]?)
  let day := parseInt (stringOrUndefined fullDate[0]?)
  let month := getProperty MONTHS_TO_NUMBER (String.mk (stringOrUndefined fullDate[1]?))
  let newDate := dateOfFields host year month day
  newDate

/-- The function `parseDate` of `format.js`. -/
def parseDate (host : Host) (date : String) : JSDate := parseDateChars host date.toList

/-- The function `formatStatus` of `format.js`; `none` is `undefined`, the
value of a call whose `switch` matches no case. -/
def formatStatus (status : String) : Option String :=
  if status = "pending" then some "En attente"
  else if status = "accepted" then some "Accepté"
  else if status = "refused" then some "Refused"
  else none

/-- The comparator `(a, b) => parseDate(a) - parseDate(b)` of the ordering
test of `__tests__/Bills.js`. -/
def compareDisplay (host : Host) (a b : String) : Option Int :=
  dateSub (parseDate host a) (parseDate host b)

/-! ## Vocabulary of the statements -/

/-- A decimal digit character, 0 to 9. -/
def isDecimalDigit (c : Char) : Prop := 48 ≤ c.toNat ∧ c.toNat ≤ 57

/-- A decimal numeral: a non-empty string of decimal digits. -/
def isDecimal (s : List Char) : Prop := s ≠ [] ∧ ∀ c ∈ s, isDecimalDigit c

/-- Value of a decimal numeral. -/
def decimalValue (s : List Char) : Nat :=
  s.foldl (fun acc c => acc * 10 + (c.toNat - 48)) 0

/-- Four decimal digits of a number below 10000. -/
def fourDigits (n : Nat) : List Char :=
  [Nat.digitChar (n / 1000), Nat.digitChar (n / 100 % 10), Nat.digitChar (n / 10 % 10),
    Nat.digitChar (n % 10)]

/-- The date-only string `YYYY-MM-DD` of the day `d` of month `m` (0 = January)
of year `y`. -/
def isoDate (y m d : Nat) : String :=
  String.mk (fourDigits y ++ ['-'] ++ twoDigits (m + 1) ++ ['-'] ++ twoDigits d)

/-- A calendar date: month `m` from 0 to 11 and day `d` from 1 to the length
of that month in year `y`. -/
def isCalendarDate (y m d : Nat) : Prop :=
  m < 12 ∧ 1 ≤ d ∧ (d : Int) ≤ daysInMonth y m

/-- The first three letters of the French short name of month `m`, the first
letter in upper case. -/
def monthAbbreviation (m : Nat) : List Char :=
  match (frShortMonth m).take 3 with
  | [] => []
  | c :: cs => c.toUpper :: cs

/-- The abbreviation under which `formatDate` displays month `m`: the three
letters and the full stop that follows them. -/
def displayAbbreviation (m : Nat) : String := String.mk (monthAbbreviation m ++ ['.'])

/-- Chronological order of two calendar dates given by year, month and day. -/
def dateBefore (y1 m1 d1 y2 m2 d2 : Nat) : Prop :=
  y1 < y2 ∨ (y1 = y2 ∧ (m1 < m2 ∨ (m1 = m2 ∧ d1 < d2)))

/-- A separator of the pattern of the ordering test: one of `-`, space, `/`
and `.`. -/
def isPatternSeparator (c : Char) : Bool := c = '-' || c = space || c = '/' || c = '.'

/-- The regular expression of the ordering test of `__tests__/Bills.js`:
`^(19|20)\d\d[- /.](0[1-9]|1[012])[- /.](0[1-9]|[12][0-9]|3[01])$`. -/
def matchesTestPattern (s : List Char) : Bool :=
  match s with
  | [a, b, c, d, s1, e, f, s2, g, h] =>
    ((a = '1' && b = '9') || (a = '2' && b = '0')) &&
    (48 ≤ c.toNat && c.toNat ≤ 57) && (48 ≤ d.toNat && d.toNat ≤ 57) &&
    isPatternSeparator s1 &&
    ((e = '0' && 49 ≤ f.toNat && f.toNat ≤ 57) || (e = '1' && 48 ≤ f.toNat && f.toNat ≤ 50)) &&
    isPatternSeparator s2 &&
    ((g = '0' && 49 ≤ h.toNat && h.toNat ≤ 57) ||
      ((g = '1' || g = '2') && 48 ≤ h.toNat && h.toNat ≤ 57) ||
      (g = '3' && 48 ≤ h.toNat && h.toNat ≤ 49))
  | _ => false

/-! ## The new-bill controller -/

/-- Modelled from the spec: a file chosen in the form, with its name and its
declared media type (absent when none is declared).  The container
`containers/NewBill.js` is not among the sources; the spec is in its sections
4.2 and 4.3. -/
structure File where
  name : String
  mediaType : Option String
deriving DecidableEq, Repr

/-- Modelled from the spec: the validator of the absent `NewBill.js`,
`isAcceptable(mediaType)`, true only for the image types jpeg, jpg and png;
any other declared type, and an absent type, is rejected. -/
def isAcceptable (mediaType : Option String) : Bool :=
  match mediaType with
  | some t => t == "image/jpeg" || t == "image/jpg" || t == "image/png"
  | none => false

/-- Modelled from the spec: an expense report (section 3 of the spec; the
type is declared in no source file). -/
structure Bill where
  id : Option String
  email : String
  kind : String
  name : String
  date : String
  amount : Nat
  vat : Nat
  pct : Nat
  commentary : String
  fileUrl : Option String
  fileName : Option String
  status : String
deriving DecidableEq, Repr

/-- Modelled from the spec: the fields collected from the form on submit. -/
structure FormFields where
  kind : String
  name : String
  date : String
  amount : Nat
  vat : Nat
  pct : Nat
  commentary : String
deriving DecidableEq, Repr

/-- Modelled from the spec: the two route identifiers known to `onNavigate`
(section 6). -/
inductive Route where
  | Bills
  | NewBill
deriving DecidableEq, Repr

/-- Modelled from the spec: the states of one submission in progress
(section 4.3). -/
inductive SubmissionState where
  | NoFile
  | FileInvalid
  | FileValid
  | Submitting
  | Submitted
  | SubmitFailed
deriving DecidableEq, Repr

/-- Modelled from the spec: what the controller does to its collaborators, a
call of the Store or a call of `onNavigate`. -/
inductive Effect where
  | storeCreate (bill : Bill)
  | storeUpdate (bill : Bill)
  | navigate (route : Route)
deriving DecidableEq, Repr

/-- Modelled from the spec: the Store boundary (section 6); a call resolves
with a bill or rejects with an error message. -/
structure Store where
  create : Bill → Except String Bill
  update : Bill → Except String Bill

/-- Modelled from the spec: the controller of the absent `NewBill.js`, with
the state of the submission, the validity flag exposed to callers, the file
reference, the remembered bill identifier, the session email and the effects
performed so far, oldest first. -/
structure Controller where
  state : SubmissionState
  isFileValid : Bool
  fileName : Option String
  fileUrl : Option String
  billId : Option String
  email : String
  effects : List Effect
deriving DecidableEq, Repr

/-- Modelled from the spec: the transition `selectFile(file)` of the absent
`NewBill.js`.  A valid file gives the state `FileValid` and stores its name;
an invalid one gives `FileInvalid`, clears the file reference and makes
`isFileValid` false. -/
def selectFile (c : Controller) (file : File) : Controller :=
  if isAcceptable file.mediaType then
    { c with state := SubmissionState.FileValid, isFileValid := true,
             fileName := some file.name }
  else
    { c with state := SubmissionState.FileInvalid, isFileValid := false,
             fileName := none, fileUrl := none }

/-- Modelled from the spec: the bill assembled on submit from the form fields,
the session email and the file reference, with the status `pending`. -/
def assembleBill (c : Controller) (fields : FormFields) : Bill :=
  { id := none, email := c.email, kind := fields.kind, name := fields.name,
    date := fields.date, amount := fields.amount, vat := fields.vat, pct := fields.pct,
    commentary := fields.commentary, fileUrl := c.fileUrl, fileName := c.fileName,
    status := "pending" }

/-- Modelled from the spec: the bill handed to the Store by `updateBill`, with
the identifier remembered by the controller, if any, merged in. -/
def mergeBillId (c : Controller) (bill : Bill) : Bill :=
  match c.billId with
  | some i => { bill with id := some i }
  | none => bill

/-- Modelled from the spec: `updateBill(bill)` of the absent `NewBill.js`.  The
Store is called with the remembered identifier merged in; on resolution
`onNavigate` is called with the bills route, on rejection the error is
returned unchanged. -/
def updateBill (store : Store) (c : Controller) (bill : Bill) :
    Controller × Except String Bill :=
  let merged := mergeBillId c bill
  let called := { c with effects := c.effects ++ [Effect.storeUpdate merged] }
  match store.update merged with
  | Except.ok b =>
    ({ called with state := SubmissionState.Submitted,
                   effects := called.effects ++ [Effect.navigate Route.Bills] }, Except.ok b)
  | Except.error e => ({ called with state := SubmissionState.SubmitFailed }, Except.error e)

/-- Modelled from the spec: `createBill(bill)` of the absent `NewBill.js`.  The
Store is called; on resolution the controller proceeds to `updateBill`, on
rejection the state is `SubmitFailed` and the error is returned. -/
def createBill (store : Store) (c : Controller) (bill : Bill) :
    Controller × Except String Bill :=
  let called := { c with effects := c.effects ++ [Effect.storeCreate bill] }
  match store.create bill with
  | Except.ok b => updateBill store called b
  | Except.error e => ({ called with state := SubmissionState.SubmitFailed }, Except.error e)

/-- Modelled from the spec: the transition `submit(formFields)` of the absent
`NewBill.js`, allowed only from `FileValid`; from any other state it refuses
to proceed, with no effect and no error (`none`). -/
def submit (store : Store) (c : Controller) (fields : FormFields) :
    Controller × Option (Except String Bill) :=
  match c.state with
  | SubmissionState.FileValid =>
    let r := createBill store { c with state := SubmissionState.Submitting }
      (assembleBill c fields)
    (r.1, some r.2)
  | _ => (c, none)

/-- A Store whose calls all resolve with the bill they are given. -/
def echoStore : Store := { create := fun b => Except.ok b, update := fun b => Except.ok b }

/-- A controller on which no file has been selected yet. -/
def freshController : Controller :=
  { state := SubmissionState.NoFile, isFileValid := false, fileName := none, fileUrl := none,
    billId := none, email := "employee@test.tld", effects := [] }

/-- The form fields of the submission test of `__tests__/NewBill.js`. -/
def sampleFields : FormFields :=
  { kind := "Transports", name := "Paris", date := "2024-07-02", amount := 100, vat := 10,
    pct := 10, commentary := "test" }

/-! ## Calendar lemmas -/

theorem dayFromYear_succ (y : Int) :
    dayFromYear (y + 1) = dayFromYear y + 365 + leapDay (isLeapYear y) := by
  unfold dayFromYear leapDay isLeapYear
  by_cases h4 : y % 4 = 0 <;> by_cases h100 : y % 100 = 0 <;> by_cases h400 : y % 400 = 0 <;>
    simp [h4, h100, h400] <;> omega

theorem leapDay_bounds (b : Bool) : 0 ≤ leapDay b ∧ leapDay b ≤ 1 := by
  cases b <;> simp [leapDay]

theorem dayFromYear_mono {a b : Int} (h : a ≤ b) : dayFromYear a ≤ dayFromYear b := by
  refine Int.le_induction (P := fun n => dayFromYear a ≤ dayFromYear n) (le_refl _) ?_ b h
  intro n _ ih
  have h1 := dayFromYear_succ n
  have h2 := leapDay_bounds (isLeapYear n)
  omega

theorem dayFromYear_linear (y : Int) :
    146097 * (y - 1970) - 146097 < 400 * dayFromYear y ∧
      400 * dayFromYear y < 146097 * (y - 1970) + 146097 := by
  unfold dayFromYear
  constructor <;> omega

theorem yearFromDay_bracket (d : Int) :
    dayFromYear (yearFromDay d) ≤ d ∧ d < dayFromYear (yearFromDay d + 1) := by
  have hlo := (dayFromYear_linear (1970 + 400 * d / 146097 - 1)).2
  have hhi := (dayFromYear_linear (1970 + 400 * d / 146097 + 1 + 1)).1
  unfold yearFromDay
  simp only
  split_ifs with h1 h2
  · constructor
    · exact h1
    · omega
  · constructor
    · omega
    · simpa using h2
  · constructor <;> omega

theorem yearFromDay_spec (y d : Int) (h1 : dayFromYear y ≤ d) (h2 : d < dayFromYear (y + 1)) :
    yearFromDay d = y := by
  obtain ⟨b1, b2⟩ := yearFromDay_bracket d
  by_contra hne
  rcases lt_or_gt_of_ne hne with hlt | hgt
  · have := dayFromYear_mono (show yearFromDay d + 1 ≤ y by omega)
    omega
  · have := dayFromYear_mono (show y + 1 ≤ yearFromDay d by omega)
    omega

theorem daysBeforeMonth_table (l : Bool) :
    daysBeforeMonth l 0 = 0 ∧ daysBeforeMonth l 1 = 31 ∧
    daysBeforeMonth l 2 = 59 + leapDay l ∧ daysBeforeMonth l 3 = 90 + leapDay l ∧
    daysBeforeMonth l 4 = 120 + leapDay l ∧ daysBeforeMonth l 5 = 151 + leapDay l ∧
    daysBeforeMonth l 6 = 181 + leapDay l ∧ daysBeforeMonth l 7 = 212 + leapDay l ∧
    daysBeforeMonth l 8 = 243 + leapDay l ∧ daysBeforeMonth l 9 = 273 + leapDay l ∧
    daysBeforeMonth l 10 = 304 + leapDay l ∧ daysBeforeMonth l 11 = 334 + leapDay l ∧
    daysBeforeMonth l 12 = 365 + leapDay l :=
  ⟨rfl, rfl, rfl, rfl, rfl, rfl, rfl, rfl, rfl, rfl, rfl, rfl, rfl⟩

theorem month_cases {m : Int} (hm0 : 0 ≤ m) (hm : m < 12) :
    m = 0 ∨ m = 1 ∨ m = 2 ∨ m = 3 ∨ m = 4 ∨ m = 5 ∨ m = 6 ∨ m = 7 ∨ m = 8 ∨
      m = 9 ∨ m = 10 ∨ m = 11 := by omega

theorem daysInMonth_table (y : Int) :
    daysInMonth y 0 = 31 ∧ daysInMonth y 1 = 28 + leapDay (isLeapYear y) ∧
    daysInMonth y 2 = 31 ∧ daysInMonth y 3 = 30 ∧ daysInMonth y 4 = 31 ∧
    daysInMonth y 5 = 30 ∧ daysInMonth y 6 = 31 ∧ daysInMonth y 7 = 31 ∧
    daysInMonth y 8 = 30 ∧ daysInMonth y 9 = 31 ∧ daysInMonth y 10 = 30 ∧
    daysInMonth y 11 = 31 := by
  obtain ⟨t0, t1, t2, t3, t4, t5, t6, t7, t8, t9, t10, t11, t12⟩ :=
    daysBeforeMonth_table (isLeapYear y)
  refine ⟨?_, ?_, ?_, ?_, ?_, ?_, ?_, ?_, ?_, ?_, ?_, ?_⟩
  · show daysBeforeMonth _ 1 - daysBeforeMonth _ 0 = _
    rw [t1, t0]; rfl
  · show daysBeforeMonth _ 2 - daysBeforeMonth _ 1 = _
    rw [t2, t1]; ring
  · show daysBeforeMonth _ 3 - daysBeforeMonth _ 2 = _
    rw [t3, t2]; ring
  · show daysBeforeMonth _ 4 - daysBeforeMonth _ 3 = _
    rw [t4, t3]; ring
  · show daysBeforeMonth _ 5 - daysBeforeMonth _ 4 = _
    rw [t5, t4]; ring
  · show daysBeforeMonth _ 6 - daysBeforeMonth _ 5 = _
    rw [t6, t5]; ring
  · show daysBeforeMonth _ 7 - daysBeforeMonth _ 6 = _
    rw [t7, t6]; ring
  · show daysBeforeMonth _ 8 - daysBeforeMonth _ 7 = _
    rw [t8, t7]; ring
  · show daysBeforeMonth _ 9 - daysBeforeMonth _ 8 = _
    rw [t9, t8]; ring
  · show daysBeforeMonth _ 10 - daysBeforeMonth _ 9 = _
    rw [t10, t9]; ring
  · show daysBeforeMonth _ 11 - daysBeforeMonth _ 10 = _
    rw [t11, t10]; ring
  · show daysBeforeMonth _ 12 - daysBeforeMonth _ 11 = _
    rw [t12, t11]; ring

theorem makeDay_of_month {y m dt : Int} (hm0 : 0 ≤ m) (hm : m < 12) :
    makeDay y m dt = dayFromYear y + daysBeforeMonth (isLeapYear y) m + dt - 1 := by
  unfold makeDay
  have h1 : m / 12 = 0 := by omega
  have h2 : m % 12 = m := by omega
  simp only [h1, h2, add_zero]

/-- Start and length of each month, as linear facts. -/
theorem month_facts (y : Int) {m : Int} (hm0 : 0 ≤ m) (hm : m < 12) :
    ∃ a len k : Int, daysBeforeMonth (isLeapYear y) m = a ∧ daysInMonth y m = len ∧
      leapDay (isLeapYear y) = k ∧ 0 ≤ k ∧ k ≤ 1 ∧
      ((m = 0 ∧ a = 0 ∧ len = 31) ∨ (m = 1 ∧ a = 31 ∧ len = 28 + k) ∨
       (m = 2 ∧ a = 59 + k ∧ len = 31) ∨ (m = 3 ∧ a = 90 + k ∧ len = 30) ∨
       (m = 4 ∧ a = 120 + k ∧ len = 31) ∨ (m = 5 ∧ a = 151 + k ∧ len = 30) ∨
       (m = 6 ∧ a = 181 + k ∧ len = 31) ∨ (m = 7 ∧ a = 212 + k ∧ len = 31) ∨
       (m = 8 ∧ a = 243 + k ∧ len = 30) ∨ (m = 9 ∧ a = 273 + k ∧ len = 31) ∨
       (m = 10 ∧ a = 304 + k ∧ len = 30) ∨ (m = 11 ∧ a = 334 + k ∧ len = 31)) := by
  have hl := leapDay_bounds (isLeapYear y)
  obtain ⟨t0, t1, t2, t3, t4, t5, t6, t7, t8, t9, t10, t11, -⟩ :=
    daysBeforeMonth_table (isLeapYear y)
  obtain ⟨d0, d1, d2, d3, d4, d5, d6, d7, d8, d9, d10, d11⟩ := daysInMonth_table y
  rcases month_cases hm0 hm with h | h | h | h | h | h | h | h | h | h | h | h <;> subst h
  · exact ⟨_, _, _, t0, d0, rfl, hl.1, hl.2, Or.inl ⟨rfl, rfl, rfl⟩⟩
  · exact ⟨_, _, _, t1, d1, rfl, hl.1, hl.2, Or.inr (Or.inl ⟨rfl, rfl, rfl⟩)⟩
  · exact ⟨_, _, _, t2, d2, rfl, hl.1, hl.2, Or.inr (Or.inr (Or.inl ⟨rfl, rfl, rfl⟩))⟩
  · exact ⟨_, _, _, t3, d3, rfl, hl.1, hl.2, Or.inr (Or.inr (Or.inr (Or.inl ⟨rfl, rfl, rfl⟩)))⟩
  · exact ⟨_, _, _, t4, d4, rfl, hl.1, hl.2, Or.inr (Or.inr (Or.inr (Or.inr (Or.inl ⟨rfl, rfl, rfl⟩))))⟩
  · exact ⟨_, _, _, t5, d5, rfl, hl.1, hl.2, Or.inr (Or.inr (Or.inr (Or.inr (Or.inr (Or.inl ⟨rfl, rfl, rfl⟩)))))⟩
  · exact ⟨_, _, _, t6, d6, rfl, hl.1, hl.2, Or.inr (Or.inr (Or.inr (Or.inr (Or.inr (Or.inr (Or.inl ⟨rfl, rfl, rfl⟩))))))⟩
  · exact ⟨_, _, _, t7, d7, rfl, hl.1, hl.2, Or.inr (Or.inr (Or.inr (Or.inr (Or.inr (Or.inr (Or.inr (Or.inl ⟨rfl, rfl, rfl⟩)))))))⟩
  · exact ⟨_, _, _, t8, d8, rfl, hl.1, hl.2, Or.inr (Or.inr (Or.inr (Or.inr (Or.inr (Or.inr (Or.inr (Or.inr (Or.inl ⟨rfl, rfl, rfl⟩))))))))⟩
  · exact ⟨_, _, _, t9, d9, rfl, hl.1, hl.2, Or.inr (Or.inr (Or.inr (Or.inr (Or.inr (Or.inr (Or.inr (Or.inr (Or.inr (Or.inl ⟨rfl, rfl, rfl⟩)))))))))⟩
  · exact ⟨_, _, _, t10, d10, rfl, hl.1, hl.2, Or.inr (Or.inr (Or.inr (Or.inr (Or.inr (Or.inr (Or.inr (Or.inr (Or.inr (Or.inr (Or.inl ⟨rfl, rfl, rfl⟩))))))))))⟩
  · exact ⟨_, _, _, t11, d11, rfl, hl.1, hl.2, Or.inr (Or.inr (Or.inr (Or.inr (Or.inr (Or.inr (Or.inr (Or.inr (Or.inr (Or.inr (Or.inr (⟨rfl, rfl, rfl⟩)))))))))))⟩

theorem yearFromDay_makeDay {y m dt : Int} (hm0 : 0 ≤ m) (hm : m < 12)
    (hd1 : 1 ≤ dt) (hd : dt ≤ daysInMonth y m) : yearFromDay (makeDay y m dt) = y := by
  rw [makeDay_of_month hm0 hm]
  obtain ⟨a, len, k, ha, hlen, hk, hk0, hk1, hc⟩ := month_facts y hm0 hm
  rw [hlen] at hd
  apply yearFromDay_spec
  · rw [ha]
    clear ha hlen hk
    generalize dayFromYear y = b
    omega
  · rw [dayFromYear_succ, ha, hk]
    clear ha hlen hk
    generalize dayFromYear y = b
    omega

theorem monthInYear_table (l : Bool) (n : Int) :
    monthInYear l n =
      if n < 31 then 0
      else if n < 59 + leapDay l then 1
      else if n < 90 + leapDay l then 2
      else if n < 120 + leapDay l then 3
      else if n < 151 + leapDay l then 4
      else if n < 181 + leapDay l then 5
      else if n < 212 + leapDay l then 6
      else if n < 243 + leapDay l then 7
      else if n < 273 + leapDay l then 8
      else if n < 304 + leapDay l then 9
      else if n < 334 + leapDay l then 10
      else 11 := rfl

theorem monthFromDay_makeDay {y m dt : Int} (hm0 : 0 ≤ m) (hm : m < 12)
    (hd1 : 1 ≤ dt) (hd : dt ≤ daysInMonth y m) : monthFromDay (makeDay y m dt) = m := by
  unfold monthFromDay
  rw [yearFromDay_makeDay hm0 hm hd1 hd, makeDay_of_month hm0 hm, monthInYear_table]
  obtain ⟨a, len, k, ha, hlen, hk, hk0, hk1, hc⟩ := month_facts y hm0 hm
  rw [hlen] at hd
  rw [ha, hk]
  generalize dayFromYear y = b
  clear ha hlen hk
  have e : b + a + dt - 1 - b = a + dt - 1 := by ring
  rw [e]
  clear e
  generalize hn : a + dt - 1 = n
  by_cases h0 : n < 31
  · rw [if_pos h0]; omega
  rw [if_neg h0]
  by_cases h1 : n < 59 + k
  · rw [if_pos h1]; omega
  rw [if_neg h1]
  by_cases h2 : n < 90 + k
  · rw [if_pos h2]; omega
  rw [if_neg h2]
  by_cases h3 : n < 120 + k
  · rw [if_pos h3]; omega
  rw [if_neg h3]
  by_cases h4 : n < 151 + k
  · rw [if_pos h4]; omega
  rw [if_neg h4]
  by_cases h5 : n < 181 + k
  · rw [if_pos h5]; omega
  rw [if_neg h5]
  by_cases h6 : n < 212 + k
  · rw [if_pos h6]; omega
  rw [if_neg h6]
  by_cases h7 : n < 243 + k
  · rw [if_pos h7]; omega
  rw [if_neg h7]
  by_cases h8 : n < 273 + k
  · rw [if_pos h8]; omega
  rw [if_neg h8]
  by_cases h9 : n < 304 + k
  · rw [if_pos h9]; omega
  rw [if_neg h9]
  by_cases h10 : n < 334 + k
  · rw [if_pos h10]; omega
  rw [if_neg h10]
  omega

theorem dateFromDay_makeDay {y m dt : Int} (hm0 : 0 ≤ m) (hm : m < 12)
    (hd1 : 1 ≤ dt) (hd : dt ≤ daysInMonth y m) : dateFromDay (makeDay y m dt) = dt := by
  show makeDay y m dt - dayFromYear (yearFromDay (makeDay y m dt)) -
    daysBeforeMonth (isLeapYear (yearFromDay (makeDay y m dt))) (monthFromDay (makeDay y m dt))
      + 1 = dt
  rw [monthFromDay_makeDay hm0 hm hd1 hd, yearFromDay_makeDay hm0 hm hd1 hd,
    makeDay_of_month hm0 hm]
  ring

/-! ## Strings and numerals -/

theorem digitValue_digitChar : ∀ k < 10, digitValue 10 (Nat.digitChar k) = some k := by
  decide

theorem digitChar_isDecimalDigit : ∀ k < 10, isDecimalDigit (Nat.digitChar k) := by
  unfold isDecimalDigit
  decide

theorem not_space_of_digit {c : Char} (h : isDecimalDigit c) : c ≠ space := by
  rintro rfl
  revert h
  unfold isDecimalDigit
  decide

theorem digitValue_of_digit {c : Char} (h : isDecimalDigit c) :
    digitValue 10 c = some (c.toNat - 48) := by
  unfold isDecimalDigit at h
  unfold digitValue
  simp only [h, and_self, if_true]
  rw [if_pos (by omega)]

theorem takeDigits_of_digits (s : List Char) (h : ∀ c ∈ s, isDecimalDigit c) :
    takeDigits 10 s = s.map fun c => c.toNat - 48 := by
  induction s with
  | nil => rfl
  | cons c cs ih =>
    have hc := digitValue_of_digit (h c (List.mem_cons_self _ _))
    have hcs := ih fun x hx => h x (List.mem_cons_of_mem _ hx)
    simp only [takeDigits, hc, hcs, List.map_cons]

theorem digitsValue_map (s : List Char) (acc : Nat) :
    (s.map fun c => c.toNat - 48).foldl (fun a v => a * 10 + v) acc =
      s.foldl (fun a c => a * 10 + (c.toNat - 48)) acc := by
  induction s generalizing acc with
  | nil => rfl
  | cons c cs ih => simp only [List.map_cons, List.foldl_cons, ih]

theorem split_of_no_sep (sep : Char) (s : List Char) (h : sep ∉ s) : split sep s = [s] := by
  induction s with
  | nil => rfl
  | cons c cs ih =>
    have hc : c ≠ sep := fun e => h (e ▸ List.mem_cons_self _ _)
    have hcs : sep ∉ cs := fun e => h (List.mem_cons_of_mem _ e)
    simp only [split, hc, if_false, ih hcs]

theorem split_append_sep (sep : Char) (a rest : List Char) (h : sep ∉ a) :
    split sep (a ++ sep :: rest) = a :: split sep rest := by
  induction a with
  | nil => simp only [List.nil_append, split, if_true]
  | cons c cs ih =>
    have hc : c ≠ sep := fun e => h (e ▸ List.mem_cons_self _ _)
    have hcs : sep ∉ cs := fun e => h (List.mem_cons_of_mem _ e)
    rw [List.cons_append, split, if_neg hc, ih hcs]

theorem split_three (a b c : List Char) (ha : space ∉ a) (hb : space ∉ b) (hc : space ∉ c) :
    split space (a ++ space :: (b ++ space :: c)) = [a, b, c] := by
  rw [split_append_sep space a _ ha, split_append_sep space b _ hb, split_of_no_sep space c hc]

theorem not_whiteSpace_of_digit {c : Char} (h : isDecimalDigit c) : isStrWhiteSpace c = false := by
  unfold isDecimalDigit at h
  unfold isStrWhiteSpace
  simp only [Bool.or_eq_false_iff, decide_eq_false_iff_not, Bool.and_eq_false_iff]
  omega

theorem readSign_of_digit (c : Char) (cs : List Char) (hc : isDecimalDigit c) :
    readSign (c :: cs) = (1, c :: cs) := by
  have hminus : c ≠ '-' := by
    rintro rfl; revert hc; unfold isDecimalDigit; decide
  have hplus : c ≠ '+' := by
    rintro rfl; revert hc; unfold isDecimalDigit; decide
  simp only [readSign, hminus, hplus, if_false]

theorem readRadix_of_digits (s : List Char) (h : ∀ c ∈ s, isDecimalDigit c) :
    readRadix s = (10, s) := by
  match s, h with
  | [], _ => rfl
  | [_], _ => rfl
  | c :: x :: rest, h =>
    have hx : isDecimalDigit x := h x (List.mem_cons_of_mem _ (List.mem_cons_self _ _))
    have h1 : x ≠ 'x' := by
      rintro rfl; revert hx; unfold isDecimalDigit; decide
    have h2 : x ≠ 'X' := by
      rintro rfl; revert hx; unfold isDecimalDigit; decide
    simp only [readRadix, h1, h2, or_self, and_false, if_false]

theorem parseInt_of_decimal (s : List Char) (h : isDecimal s) :
    parseInt s = some (decimalValue s : Int) := by
  obtain ⟨hne, hd⟩ := h
  match s, hne, hd with
  | c :: cs, _, hd =>
    have hc : isDecimalDigit c := hd c (List.mem_cons_self _ _)
    have hw := not_whiteSpace_of_digit hc
    have hdrop : (c :: cs).dropWhile isStrWhiteSpace = c :: cs := by
      simp only [List.dropWhile, hw]
    unfold parseInt
    simp only [hdrop, readSign_of_digit c cs hc, readRadix_of_digits (c :: cs) hd,
      takeDigits_of_digits (c :: cs) hd]
    rw [if_neg (by simp)]
    simp only [digitsValue, one_mul, decimalValue, digitsValue_map]

/-! ## Dates built by the codec -/

theorem dayOfTime_mul (n : Int) : dayOfTime (n * msPerDay) = n := by
  unfold dayOfTime msPerDay
  omega

theorem localTime_utcTime (host : Host) (t : Int) : localTime host (utcTime host t) = t := by
  unfold localTime utcTime
  omega

theorem dayOfTime_localTime (host : Host) (h0 : 0 ≤ host.offset) (n : Int) :
    dayOfTime (localTime host (n * msPerDay)) = n := by
  have h1 := host.offset_le
  unfold dayOfTime localTime msPerDay msPerMinute
  omega

theorem day_le_31 {y m d : Nat} (h : isCalendarDate y m d) : d ≤ 31 := by
  obtain ⟨hm, hd1, hd⟩ := h
  obtain ⟨a, len, k, ha, hlen, hk, hk0, hk1, hc⟩ :=
    month_facts (y : Int) (m := (m : Int)) (by omega) (by omega)
  rw [hlen] at hd
  clear ha hlen hk
  omega

theorem timeClip_makeDay {y m d : Int} (hy1 : 0 ≤ y) (hy : y ≤ 9999) (hm0 : 0 ≤ m)
    (hm : m < 12) (hd1 : 1 ≤ d) (hd : d ≤ 31) :
    timeClip (makeDay y m d * msPerDay) = some (makeDay y m d * msPerDay) := by
  obtain ⟨a, len, k, ha, hlen, hk, hk0, hk1, hc⟩ := month_facts y hm0 hm
  obtain ⟨l1, l2⟩ := dayFromYear_linear y
  rw [makeDay_of_month hm0 hm, ha]
  clear ha hlen hk
  generalize dayFromYear y = b at *
  unfold timeClip maxTime msPerDay
  rw [if_pos (by constructor <;> omega)]

theorem timeClip_utcTime (host : Host) {y m d : Int} (hy1 : 0 ≤ y) (hy : y ≤ 9999)
    (hm0 : 0 ≤ m) (hm : m < 12) (hd1 : 1 ≤ d) (hd : d ≤ 31) :
    timeClip (utcTime host (makeDay y m d * msPerDay)) =
      some (utcTime host (makeDay y m d * msPerDay)) := by
  obtain ⟨a, len, k, ha, hlen, hk, hk0, hk1, hc⟩ := month_facts y hm0 hm
  obtain ⟨l1, l2⟩ := dayFromYear_linear y
  have o1 := host.offset_ge
  have o2 := host.offset_le
  rw [makeDay_of_month hm0 hm, ha]
  clear ha hlen hk
  generalize dayFromYear y = b at *
  unfold timeClip maxTime utcTime msPerDay msPerMinute
  rw [if_pos (by constructor <;> omega)]

theorem dateOfString_digits (a b c d e f g h : Nat) (ha : a < 10) (hb : b < 10) (hc : c < 10)
    (hd : d < 10) (he : e < 10) (hf : f < 10) (hg : g < 10) (hh : h < 10) :
    dateOfString [Nat.digitChar a, Nat.digitChar b, Nat.digitChar c, Nat.digitChar d, '-',
        Nat.digitChar e, Nat.digitChar f, '-', Nat.digitChar g, Nat.digitChar h] =
      some (if 1 ≤ ((digitsValue 10 [e, f] : Nat) : Int) ∧
          ((digitsValue 10 [e, f] : Nat) : Int) ≤ 12 ∧
          1 ≤ ((digitsValue 10 [g, h] : Nat) : Int) ∧
          ((digitsValue 10 [g, h] : Nat) : Int) ≤ 31
      then timeClip (makeDay (digitsValue 10 [a, b, c, d] : Nat) ((digitsValue 10 [e, f] : Nat) - 1)
        (digitsValue 10 [g, h] : Nat) * msPerDay)
      else none) := by
  simp only [dateOfString, takeDigits, digitValue_digitChar _ ha, digitValue_digitChar _ hb,
    digitValue_digitChar _ hc, digitValue_digitChar _ hd, digitValue_digitChar _ he,
    digitValue_digitChar _ hf, digitValue_digitChar _ hg, digitValue_digitChar _ hh,
    and_self, if_true]

theorem dateOfString_isoDate (y m d : Nat) (hy : y ≤ 9999) (hdate : isCalendarDate y m d) :
    dateOfString (isoDate y m d).toList = some (some (makeDay y m d * msPerDay)) := by
  have h31 := day_le_31 hdate
  obtain ⟨hm, hd1, hd⟩ := hdate
  have e1 : digitsValue 10 [y / 1000, y / 100 % 10, y / 10 % 10, y % 10] = y := by
    simp only [digitsValue, List.foldl]
    omega
  have e2 : digitsValue 10 [(m + 1) / 10, (m + 1) % 10] = m + 1 := by
    simp only [digitsValue, List.foldl]
    omega
  have e3 : digitsValue 10 [d / 10, d % 10] = d := by
    simp only [digitsValue, List.foldl]
    omega
  have e4 : (((m + 1 : Nat) : Int) - 1) = (m : Int) := by omega
  show dateOfString [Nat.digitChar (y / 1000), Nat.digitChar (y / 100 % 10),
    Nat.digitChar (y / 10 % 10), Nat.digitChar (y % 10), '-', Nat.digitChar ((m + 1) / 10),
    Nat.digitChar ((m + 1) % 10), '-', Nat.digitChar (d / 10), Nat.digitChar (d % 10)] = _
  rw [dateOfString_digits _ _ _ _ _ _ _ _ (by omega) (by omega) (by omega) (by omega)
    (by omega) (by omega) (by omega) (by omega), e1, e2, e3, e4]
  rw [if_pos ⟨by omega, by omega, by omega, by omega⟩]
  exact congrArg some
    (timeClip_makeDay (by omega) (by omega) (by omega) (by omega) (by omega) (by omega))

/-! ## The output of `formatDate` -/

theorem toDigits_four (y : Nat) (h1 : 1000 ≤ y) (h2 : y ≤ 9999) :
    Nat.toDigits 10 y = fourDigits y := by
  have hf : y + 1 = (y - 3) + 1 + 1 + 1 + 1 := by omega
  unfold Nat.toDigits fourDigits
  rw [hf]
  simp only [Nat.toDigitsCore]
  rw [if_neg (by omega), if_neg (by omega), if_neg (by omega), if_pos (by omega)]
  have e1 : y / 10 / 10 / 10 % 10 = y / 1000 := by omega
  have e2 : y / 10 / 10 % 10 = y / 100 % 10 := by omega
  rw [e1, e2]

theorem digitChar_toNat : ∀ k < 10, (Nat.digitChar k).toNat - 48 = k := by
  decide

theorem twoDigits_decimal (d : Nat) (h : d < 100) :
    isDecimal (twoDigits d) ∧ decimalValue (twoDigits d) = d := by
  have h1 : d / 10 < 10 := by omega
  have h2 : d % 10 < 10 := by omega
  refine ⟨⟨by simp [twoDigits], ?_⟩, ?_⟩
  · intro c hc
    simp only [twoDigits, List.mem_cons, List.mem_singleton, List.mem_nil_iff, or_false] at hc
    rcases hc with rfl | rfl
    · exact digitChar_isDecimalDigit _ h1
    · exact digitChar_isDecimalDigit _ h2
  · simp only [decimalValue, twoDigits, List.foldl, digitChar_toNat _ h1, digitChar_toNat _ h2]
    omega

theorem toDigits_day : ∀ d < 32,
    (Nat.toDigits 10 d ≠ [] ∧ ∀ c ∈ Nat.toDigits 10 d, 48 ≤ c.toNat ∧ c.toNat ≤ 57) ∧
      decimalValue (Nat.toDigits 10 d) = d := by
  decide

theorem toDigits_day_decimal {d : Nat} (h : d < 32) :
    isDecimal (Nat.toDigits 10 d) ∧ decimalValue (Nat.toDigits 10 d) = d :=
  toDigits_day d h

theorem numberToString_natCast (d : Nat) : numberToString (some (d : Int)) = Nat.toDigits 10 d := by
  unfold numberToString
  simp only
  rw [if_neg (by omega), Int.toNat_ofNat]

theorem displayed_month (m : Nat) (hm : m < 12) :
    substr (toUpperCase (charAt (frShortMonth m) 0) ++ slice (frShortMonth m) 1) 0 3 =
      monthAbbreviation m := by
  interval_cases m <;> rfl

theorem formatDateChars_isoDate (host : Host) (h0 : 0 ≤ host.offset) (y m d : Nat)
    (hy1 : 1000 ≤ y) (hy : y ≤ 9999) (hdate : isCalendarDate y m d) :
    formatDateChars host (isoDate y m d).toList =
      Outcome.returns (Nat.toDigits 10 d ++ [space] ++ monthAbbreviation m ++ ['.', space] ++
        [Nat.digitChar (y / 10 % 10), Nat.digitChar (y % 10)]) := by
  have h31 := day_le_31 hdate
  have hiso := dateOfString_isoDate y m d hy hdate
  obtain ⟨hm, hd1, hd⟩ := hdate
  have hm0 : (0 : Int) ≤ m := by omega
  have hm' : (m : Int) < 12 := by omega
  have hd1' : (1 : Int) ≤ d := by omega
  have hY : formatYearNumeric host (makeDay y m d * msPerDay) = fourDigits y := by
    unfold formatYearNumeric
    simp only
    rw [dayOfTime_localTime host h0, yearFromDay_makeDay hm0 hm' hd1' hd, if_neg (by omega),
      Int.toNat_ofNat, toDigits_four y hy1 hy]
  have hM : formatMonthShort host (makeDay y m d * msPerDay) = frShortMonth m := by
    unfold formatMonthShort
    rw [dayOfTime_localTime host h0, monthFromDay_makeDay hm0 hm' hd1' hd]
  have hD : formatDay2Digit host (makeDay y m d * msPerDay) = twoDigits d := by
    unfold formatDay2Digit
    rw [dayOfTime_localTime host h0, dateFromDay_makeDay hm0 hm' hd1' hd, Int.toNat_ofNat]
  obtain ⟨hdec, hval⟩ := twoDigits_decimal d (by omega)
  unfold formatDateChars
  rw [hiso]
  simp only [hY, hM, hD, parseInt_of_decimal _ hdec, hval, numberToString_natCast,
    displayed_month m hm]
  rfl

/-! ## The input of `parseDate` -/

theorem monthsTable : MONTHS_TO_NUMBER =
    [("Jan.", 0), ("Fév.", 1), ("Mar.", 2), ("Avr.", 3), ("Mai.", 4), ("Jui.", 6),
      ("Aoû.", 7), ("Sep.", 8), ("Oct.", 9), ("Nov.", 10), ("Déc.", 11)] := by
  decide

theorem getProperty_display : ∀ m < 12,
    getProperty MONTHS_TO_NUMBER (displayAbbreviation m) = some (if m = 5 then 6 else (m : Int)) := by
  decide

theorem display_no_space : ∀ m < 12, space ∉ monthAbbreviation m ++ ['.'] := by
  decide

theorem decimalValue_year (y1 y0 : Char) :
    decimalValue ("20".toList ++ [y1, y0]) = 2000 + decimalValue [y1, y0] := by
  show decimalValue ['2', '0', y1, y0] = _
  have h2 : '2'.toNat = 50 := rfl
  have h0 : '0'.toNat = 48 := rfl
  simp only [decimalValue, List.foldl, h2, h0]
  omega

theorem isDecimal_year {y1 y0 : Char} (h1 : isDecimalDigit y1) (h0 : isDecimalDigit y0) :
    isDecimal ("20".toList ++ [y1, y0]) := by
  show isDecimal ['2', '0', y1, y0]
  refine ⟨by simp, ?_⟩
  intro c hc
  simp only [List.mem_cons, List.mem_singleton, List.mem_nil_iff, or_false] at hc
  rcases hc with rfl | rfl | rfl | rfl
  · unfold isDecimalDigit; decide
  · unfold isDecimalDigit; decide
  · exact h1
  · exact h0

theorem no_space_of_decimal {s : List Char} (h : isDecimal s) : space ∉ s := fun hs =>
  not_space_of_digit (h.2 space hs) rfl

theorem parseDateChars_fields (host : Host) (day abbr : List Char) (y1 y0 : Char)
    (hday : isDecimal day) (habbr : space ∉ abbr) (h1 : isDecimalDigit y1)
    (h0 : isDecimalDigit y0) :
    parseDateChars host (day ++ space :: (abbr ++ space :: [y1, y0])) =
      dateOfFields host (some ((2000 + decimalValue [y1, y0] : Nat) : Int))
        (getProperty MONTHS_TO_NUMBER (String.mk abbr)) (some (decimalValue day : Int)) := by
  have hyy : space ∉ [y1, y0] := by
    intro h
    simp only [List.mem_cons, List.mem_singleton, List.mem_nil_iff, or_false] at h
    rcases h with h | h
    · exact not_space_of_digit h1 h.symm
    · exact not_space_of_digit h0 h.symm
  unfold parseDateChars
  rw [split_three day abbr [y1, y0] (no_space_of_decimal hday) habbr hyy]
  simp only [List.getElem?_cons_zero, List.getElem?_cons_succ, stringOrUndefined,
    parseInt_of_decimal _ (isDecimal_year h1 h0), parseInt_of_decimal _ hday,
    decimalValue_year]

theorem dateOfFields_valid (host : Host) {y m d : Nat} (hy1 : 100 ≤ y) (hy : y ≤ 9999)
    (hm : m < 12) (hd1 : 1 ≤ d) (hd : d ≤ 31) :
    dateOfFields host (some (y : Int)) (some (m : Int)) (some (d : Int)) =
      some (utcTime host (makeDay y m d * msPerDay)) := by
  unfold dateOfFields
  simp only
  rw [if_neg (by omega)]
  exact timeClip_utcTime host (by omega) (by omega) (by omega) (by omega) (by omega) (by omega)

theorem fields_of_makeDay (host : Host) {y m d : Nat} (hdate : isCalendarDate y m d) :
    getFullYear host (some (utcTime host (makeDay y m d * msPerDay))) = some (y : Int) ∧
      getMonth host (some (utcTime host (makeDay y m d * msPerDay))) = some (m : Int) ∧
      getDate host (some (utcTime host (makeDay y m d * msPerDay))) = some (d : Int) := by
  obtain ⟨hm, hd1, hd⟩ := hdate
  have hm0 : (0 : Int) ≤ m := by omega
  have hm' : (m : Int) < 12 := by omega
  have hd1' : (1 : Int) ≤ d := by omega
  simp only [getFullYear, getMonth, getDate, Option.map_some', localTime_utcTime, dayOfTime_mul,
    yearFromDay_makeDay hm0 hm' hd1' hd, monthFromDay_makeDay hm0 hm' hd1' hd,
    dateFromDay_makeDay hm0 hm' hd1' hd, and_self]

theorem parseDateChars_display (host : Host) (y m d : Nat) (hy1 : 2000 ≤ y) (hy : y ≤ 2099)
    (hdate : isCalendarDate y m d) :
    parseDateChars host (Nat.toDigits 10 d ++ [space] ++ monthAbbreviation m ++ ['.', space] ++
        [Nat.digitChar (y / 10 % 10), Nat.digitChar (y % 10)]) =
      dateOfFields host (some (y : Int)) (some (if m = 5 then 6 else (m : Int)))
        (some (d : Int)) := by
  have h31 := day_le_31 hdate
  obtain ⟨hm, hd1, hd⟩ := hdate
  obtain ⟨hdec, hval⟩ := toDigits_day_decimal (d := d) (by omega)
  have ha : y / 10 % 10 < 10 := by omega
  have hb : y % 10 < 10 := by omega
  have hshape : Nat.toDigits 10 d ++ [space] ++ monthAbbreviation m ++ ['.', space] ++
      [Nat.digitChar (y / 10 % 10), Nat.digitChar (y % 10)] =
      Nat.toDigits 10 d ++ space :: ((monthAbbreviation m ++ ['.']) ++ space ::
        [Nat.digitChar (y / 10 % 10), Nat.digitChar (y % 10)]) := by
    simp only [List.append_assoc, List.cons_append, List.nil_append]
  have hyear : 2000 + decimalValue [Nat.digitChar (y / 10 % 10), Nat.digitChar (y % 10)] = y := by
    simp only [decimalValue, List.foldl, digitChar_toNat _ ha, digitChar_toNat _ hb]
    omega
  rw [hshape, parseDateChars_fields host _ _ _ _ hdec (display_no_space m hm)
    (digitChar_isDecimalDigit _ ha) (digitChar_isDecimalDigit _ hb), hval, hyear]
  have hkey := getProperty_display m hm
  unfold displayAbbreviation at hkey
  rw [hkey]

theorem toList_mk (l : List Char) : (String.mk l).toList = l := rfl

theorem display_shape (day abbr yy : List Char) :
    day ++ [space] ++ abbr ++ ['.', space] ++ yy = day ++ [space] ++ (abbr ++ ['.']) ++ [space] ++ yy := by
  simp only [List.append_assoc, List.cons_append, List.nil_append]

theorem june_july_abbreviation :
    monthAbbreviation 5 ++ ['.'] = "Jui.".toList ∧ monthAbbreviation 6 ++ ['.'] = "Jui.".toList := by
  decide

/-- On a host at or east of UTC, the date parsed back from the display string
of a calendar date of the years 2000 to 2099: local midnight of the same year
and day, in the month that the table gives for the abbreviation. -/
theorem parseDate_formatDate (host : Host) (h0 : 0 ≤ host.offset) (y m d : Nat)
    (hy1 : 2000 ≤ y) (hy : y ≤ 2099) (hdate : isCalendarDate y m d) :
    ∃ s, formatDate host (isoDate y m d) = Outcome.returns s ∧
      s = String.mk (Nat.toDigits 10 d ++ [space] ++ monthAbbreviation m ++ ['.', space] ++
        [Nat.digitChar (y / 10 % 10), Nat.digitChar (y % 10)]) ∧
      parseDate host s =
        some (utcTime host (makeDay y (if m = 5 then 6 else m : Nat) d * msPerDay)) := by
  have h31 := day_le_31 hdate
  refine ⟨_, ?_, rfl, ?_⟩
  · unfold formatDate
    rw [formatDateChars_isoDate host h0 y m d (by omega) (by omega) hdate]
  · unfold parseDate
    rw [toList_mk, parseDateChars_display host y m d hy1 hy hdate]
    have hcast : (if m = 5 then 6 else (m : Int)) = ((if m = 5 then 6 else m : Nat) : Int) := by
      split <;> rfl
    rw [hcast]
    obtain ⟨hm, hd1, -⟩ := hdate
    exact dateOfFields_valid host (by omega) (by omega) (by split <;> omega) hd1 h31

/-! ## The claims on the date codec -/

/-- C1 as stated fails on a host west of UTC: on a host at UTC-5, 1 January
2024 (January has an abbreviation of its own) is displayed `31 Déc. 23` and
parsed back as 31 December 2023. -/
theorem roundtrip_fails_west_of_utc :
    isCalendarDate 2024 0 1 ∧
    (∀ k, k < 12 → k ≠ 0 → displayAbbreviation k ≠ displayAbbreviation 0) ∧
    formatDate hostUTCMinus5 (isoDate 2024 0 1) = Outcome.returns "31 Déc. 23" ∧
    getFullYear hostUTCMinus5 (parseDate hostUTCMinus5 "31 Déc. 23") = some 2023 ∧
    getMonth hostUTCMinus5 (parseDate hostUTCMinus5 "31 Déc. 23") = some 11 ∧
    getDate hostUTCMinus5 (parseDate hostUTCMinus5 "31 Déc. 23") = some 31 := by
  unfold isCalendarDate
  decide

/-- C1 amended: on a host whose time zone is at or east of UTC, for every
calendar date of the years 2000 to 2099 whose month has a display
abbreviation that no other month has, `formatDate` returns a display string,
`parseDate` of that string is a valid date with the same year, month and day,
and the abbreviation emitted is a key of `MONTHS_TO_NUMBER` (with the index
of the month as its value). -/
theorem parseDate_formatDate_roundtrip (host : Host) (h0 : 0 ≤ host.offset) (y m d : Nat)
    (hy1 : 2000 ≤ y) (hy : y ≤ 2099) (hdate : isCalendarDate y m d)
    (hunique : ∀ k, k < 12 → k ≠ m → displayAbbreviation k ≠ displayAbbreviation m) :
    ∃ s, formatDate host (isoDate y m d) = Outcome.returns s ∧
      s = String.mk (Nat.toDigits 10 d ++ [space] ++ (displayAbbreviation m).toList ++ [space] ++
        [Nat.digitChar (y / 10 % 10), Nat.digitChar (y % 10)]) ∧
      getFullYear host (parseDate host s) = some (y : Int) ∧
      getMonth host (parseDate host s) = some (m : Int) ∧
      getDate host (parseDate host s) = some (d : Int) ∧
      getProperty MONTHS_TO_NUMBER (displayAbbreviation m) = some (m : Int) := by
  have hm5 : m ≠ 5 := by
    rintro rfl
    exact hunique 6 (by omega) (by omega) (by decide)
  obtain ⟨s, hs, hshape, hparse⟩ := parseDate_formatDate host h0 y m d hy1 hy hdate
  rw [if_neg hm5] at hparse
  obtain ⟨f1, f2, f3⟩ := fields_of_makeDay host hdate
  refine ⟨s, hs, ?_, ?_, ?_, ?_, ?_⟩
  · rw [hshape, display_shape]
    rfl
  · rw [hparse]; exact f1
  · rw [hparse]; exact f2
  · rw [hparse]; exact f3
  · have hkey := getProperty_display m hdate.1
    rw [if_neg hm5] at hkey
    exact hkey

/-- Witness of C1 amended on 29 February 2024, on a host at UTC+1. -/
theorem parseDate_formatDate_roundtrip_witness :
    ∃ s, formatDate hostUTCPlus1 (isoDate 2024 1 29) = Outcome.returns s ∧
      s = String.mk (Nat.toDigits 10 29 ++ [space] ++ (displayAbbreviation 1).toList ++ [space] ++
        [Nat.digitChar (2024 / 10 % 10), Nat.digitChar (2024 % 10)]) ∧
      getFullYear hostUTCPlus1 (parseDate hostUTCPlus1 s) = some ((2024 : Nat) : Int) ∧
      getMonth hostUTCPlus1 (parseDate hostUTCPlus1 s) = some ((1 : Nat) : Int) ∧
      getDate hostUTCPlus1 (parseDate hostUTCPlus1 s) = some ((29 : Nat) : Int) ∧
      getProperty MONTHS_TO_NUMBER (displayAbbreviation 1) = some ((1 : Nat) : Int) :=
  parseDate_formatDate_roundtrip hostUTCPlus1 (by decide) 2024 1 29 (by decide) (by decide)
    (by unfold isCalendarDate; decide) (by decide)

/-- C4 as stated fails in two ways: on a host at UTC-5 the string
`2024-01-01` is displayed `31 Déc. 23`, with the day, month and year of the
day before; and the four-digit year 0005 is displayed with no year digit at
all, `0005-03-04` giving `4 Mar. ` on a host on UTC. -/
theorem formatDate_shape_fails :
    isCalendarDate 2024 0 1 ∧ isoDate 2024 0 1 = "2024-01-01" ∧
    formatDate hostUTCMinus5 "2024-01-01" = Outcome.returns "31 Déc. 23" ∧
    isCalendarDate 5 2 4 ∧ isoDate 5 2 4 = "0005-03-04" ∧
    formatDate hostUTC "0005-03-04" = Outcome.returns "4 Mar. " := by
  unfold isCalendarDate
  decide

/-- C4 amended: on a host whose time zone is at or east of UTC, for every
calendar date with a year from 1000 to 9999, given as a `YYYY-MM-DD` string,
`formatDate` returns the day of the month in decimal without leading zero, a
space, the first three letters of the French short month name with the first
letter in upper case, a full stop, a space, and the last two digits of the
year as two characters. -/
theorem formatDate_shape (host : Host) (h0 : 0 ≤ host.offset) (y m d : Nat) (hy1 : 1000 ≤ y)
    (hy : y ≤ 9999) (hdate : isCalendarDate y m d) :
    formatDate host (isoDate y m d) =
      Outcome.returns (String.mk (Nat.toDigits 10 d ++ [space] ++ monthAbbreviation m ++
        ['.', space] ++ [Nat.digitChar (y / 10 % 10), Nat.digitChar (y % 10)])) := by
  unfold formatDate
  rw [formatDateChars_isoDate host h0 y m d hy1 hy hdate]

/-- Witness of C4 amended on 2 July 2005, on a host at UTC+1, displayed with
the year `05`. -/
theorem formatDate_shape_witness :
    formatDate hostUTCPlus1 (isoDate 2005 6 2) =
      Outcome.returns (String.mk (Nat.toDigits 10 2 ++ [space] ++ monthAbbreviation 6 ++
        ['.', space] ++ [Nat.digitChar (2005 / 10 % 10), Nat.digitChar (2005 % 10)])) ∧
    String.mk (Nat.toDigits 10 2 ++ [space] ++ monthAbbreviation 6 ++ ['.', space] ++
        [Nat.digitChar (2005 / 10 % 10), Nat.digitChar (2005 % 10)]) = "2 Jui. 05" :=
  ⟨formatDate_shape hostUTCPlus1 (by decide) 2005 6 2 (by decide) (by decide)
    (by unfold isCalendarDate; decide), by decide⟩

/-- C9 as stated fails on a host west of UTC: on a host at UTC-5, 1 June 2024
is displayed `31 Mai. 24` and parsed back as 31 May 2024, not as a day of
July, and 1 July 2024 is displayed `30 Jui. 24` and parsed back as 30 July
2024, not as itself. -/
theorem june_july_fail_west_of_utc :
    isCalendarDate 2024 5 1 ∧ isCalendarDate 2024 6 1 ∧
    formatDate hostUTCMinus5 (isoDate 2024 5 1) = Outcome.returns "31 Mai. 24" ∧
    getMonth hostUTCMinus5 (parseDate hostUTCMinus5 "31 Mai. 24") = some 4 ∧
    getDate hostUTCMinus5 (parseDate hostUTCMinus5 "31 Mai. 24") = some 31 ∧
    formatDate hostUTCMinus5 (isoDate 2024 6 1) = Outcome.returns "30 Jui. 24" ∧
    getMonth hostUTCMinus5 (parseDate hostUTCMinus5 "30 Jui. 24") = some 6 ∧
    getDate hostUTCMinus5 (parseDate hostUTCMinus5 "30 Jui. 24") = some 30 := by
  unfold isCalendarDate
  decide

/-- C9 amended: June and July have the same display abbreviation `Jui.`; on a
host whose time zone is at or east of UTC, the display string of a day of
June of the years 2000 to 2099 is parsed as the same day of July of the same
year, and the display string of a day of July is parsed as that day. -/
theorem june_parsed_as_july (host : Host) (h0 : 0 ≤ host.offset) (y d : Nat) (hy1 : 2000 ≤ y)
    (hy : y ≤ 2099) :
    displayAbbreviation 5 = "Jui." ∧ displayAbbreviation 6 = "Jui." ∧
    (isCalendarDate y 5 d →
      ∃ s, formatDate host (isoDate y 5 d) = Outcome.returns s ∧
        s = String.mk (Nat.toDigits 10 d ++ [space] ++ "Jui.".toList ++ [space] ++
          [Nat.digitChar (y / 10 % 10), Nat.digitChar (y % 10)]) ∧
        getFullYear host (parseDate host s) = some (y : Int) ∧
        getMonth host (parseDate host s) = some 6 ∧
        getDate host (parseDate host s) = some (d : Int)) ∧
    (isCalendarDate y 6 d →
      ∃ s, formatDate host (isoDate y 6 d) = Outcome.returns s ∧
        s = String.mk (Nat.toDigits 10 d ++ [space] ++ "Jui.".toList ++ [space] ++
          [Nat.digitChar (y / 10 % 10), Nat.digitChar (y % 10)]) ∧
        getFullYear host (parseDate host s) = some (y : Int) ∧
        getMonth host (parseDate host s) = some 6 ∧
        getDate host (parseDate host s) = some (d : Int)) := by
  refine ⟨by decide, by decide, ?_, ?_⟩
  · intro hdate
    have h30 : d ≤ 30 := by
      obtain ⟨-, -, hd⟩ := hdate
      have h := (daysInMonth_table (y : Int)).2.2.2.2.2.1
      have e : ((5 : Nat) : Int) = 5 := rfl
      rw [e, h] at hd
      omega
    have hjuly : isCalendarDate y 6 d := by
      refine ⟨by omega, hdate.2.1, ?_⟩
      have h := (daysInMonth_table (y : Int)).2.2.2.2.2.2.1
      have e : ((6 : Nat) : Int) = 6 := rfl
      rw [e, h]
      omega
    obtain ⟨s, hs, hshape, hparse⟩ := parseDate_formatDate host h0 y 5 d hy1 hy hdate
    obtain ⟨f1, f2, f3⟩ := fields_of_makeDay host hjuly
    refine ⟨s, hs, ?_, ?_, ?_, ?_⟩
    · rw [hshape, display_shape, june_july_abbreviation.1]
    · rw [hparse]; exact f1
    · rw [hparse]; exact f2
    · rw [hparse]; exact f3
  · intro hdate
    obtain ⟨s, hs, hshape, hparse⟩ := parseDate_formatDate host h0 y 6 d hy1 hy hdate
    obtain ⟨f1, f2, f3⟩ := fields_of_makeDay host hdate
    refine ⟨s, hs, ?_, ?_, ?_, ?_⟩
    · rw [hshape, display_shape, june_july_abbreviation.2]
    · rw [hparse]; exact f1
    · rw [hparse]; exact f2
    · rw [hparse]; exact f3

/-- Witness of C9 amended on 30 June 2024 and 30 July 2024, both parsed as
30 July 2024, on a host at UTC+1. -/
theorem june_parsed_as_july_witness :
    (isCalendarDate 2024 5 30 ∧ isCalendarDate 2024 6 30) ∧
    (∃ s, formatDate hostUTCPlus1 (isoDate 2024 5 30) = Outcome.returns s ∧
      s = String.mk (Nat.toDigits 10 30 ++ [space] ++ "Jui.".toList ++ [space] ++
        [Nat.digitChar (2024 / 10 % 10), Nat.digitChar (2024 % 10)]) ∧
      getFullYear hostUTCPlus1 (parseDate hostUTCPlus1 s) = some ((2024 : Nat) : Int) ∧
      getMonth hostUTCPlus1 (parseDate hostUTCPlus1 s) = some 6 ∧
      getDate hostUTCPlus1 (parseDate hostUTCPlus1 s) = some ((30 : Nat) : Int)) ∧
    (∃ s, formatDate hostUTCPlus1 (isoDate 2024 6 30) = Outcome.returns s ∧
      s = String.mk (Nat.toDigits 10 30 ++ [space] ++ "Jui.".toList ++ [space] ++
        [Nat.digitChar (2024 / 10 % 10), Nat.digitChar (2024 % 10)]) ∧
      getFullYear hostUTCPlus1 (parseDate hostUTCPlus1 s) = some ((2024 : Nat) : Int) ∧
      getMonth hostUTCPlus1 (parseDate hostUTCPlus1 s) = some 6 ∧
      getDate hostUTCPlus1 (parseDate hostUTCPlus1 s) = some ((30 : Nat) : Int)) :=
  ⟨⟨by unfold isCalendarDate; decide, by unfold isCalendarDate; decide⟩,
    (june_parsed_as_july hostUTCPlus1 (by decide) 2024 30 (by decide) (by decide)).2.2.1
      (by unfold isCalendarDate; decide),
    (june_parsed_as_july hostUTCPlus1 (by decide) 2024 30 (by decide) (by decide)).2.2.2
      (by unfold isCalendarDate; decide)⟩

/-- C2, at the failing input: 15 June 2024 is earlier than 10 July 2024, yet
on a host on UTC their display strings `15 Jui. 24` and `10 Jui. 24` are
parsed as 15 July and 10 July 2024, so that the first is not earlier than the
second and the comparator `parseDate(a) - parseDate(b)` is positive (five
days), which sorts the bill of June after the bill of July.  The same holds on
a host at UTC-5, with the display strings `14 Jui. 24` and `9 Jui. 24`. -/
theorem june_sorted_after_july :
    dateBefore 2024 5 15 2024 6 10 ∧
    formatDate hostUTC (isoDate 2024 5 15) = Outcome.returns "15 Jui. 24" ∧
    formatDate hostUTC (isoDate 2024 6 10) = Outcome.returns "10 Jui. 24" ∧
    getMonth hostUTC (parseDate hostUTC "15 Jui. 24") = some 6 ∧
    getDate hostUTC (parseDate hostUTC "15 Jui. 24") = some 15 ∧
    getMonth hostUTC (parseDate hostUTC "10 Jui. 24") = some 6 ∧
    getDate hostUTC (parseDate hostUTC "10 Jui. 24") = some 10 ∧
    ¬ earlier (parseDate hostUTC "15 Jui. 24") (parseDate hostUTC "10 Jui. 24") ∧
    compareDisplay hostUTC "15 Jui. 24" "10 Jui. 24" = some (5 * msPerDay) ∧
    formatDate hostUTCMinus5 (isoDate 2024 5 15) = Outcome.returns "14 Jui. 24" ∧
    formatDate hostUTCMinus5 (isoDate 2024 6 10) = Outcome.returns "9 Jui. 24" ∧
    ¬ earlier (parseDate hostUTCMinus5 "14 Jui. 24") (parseDate hostUTCMinus5 "9 Jui. 24") ∧
    compareDisplay hostUTCMinus5 "14 Jui. 24" "9 Jui. 24" = some (5 * msPerDay) := by
  unfold dateBefore
  decide

/-- C3, on the table of the code: the key `Jui.` is written twice, so that
`MONTHS_TO_NUMBER` has eleven properties, `Jui.` has the value 6 and no key
has the value 5. -/
theorem months_table_misses_june :
    monthsLiteral.length = 12 ∧ MONTHS_TO_NUMBER.length = 11 ∧
    getProperty MONTHS_TO_NUMBER "Jui." = some 6 ∧
    ∀ p ∈ MONTHS_TO_NUMBER, p.2 ≠ 5 := by
  decide

/-- C6: `formatStatus` maps `pending` to `En attente`, `accepted` to
`Accepté` and `refused` to `Refused`, and returns `undefined` for every other
status. -/
theorem formatStatus_labels :
    formatStatus "pending" = some "En attente" ∧
    formatStatus "accepted" = some "Accepté" ∧
    formatStatus "refused" = some "Refused" ∧
    ∀ status : String, status ≠ "pending" → status ≠ "accepted" → status ≠ "refused" →
      formatStatus status = none := by
  refine ⟨by decide, by decide, by decide, ?_⟩
  intro status h1 h2 h3
  unfold formatStatus
  rw [if_neg h1, if_neg h2, if_neg h3]

/-- Witness of C6 on the status `paid`, which is none of the three. -/
theorem formatStatus_labels_witness : formatStatus "paid" = none :=
  formatStatus_labels.2.2.2 "paid" (by decide) (by decide) (by decide)

/-- The display string of a calendar date with a year from 1000 to 9999, on a
host at or east of UTC. -/
theorem formatDate_shape_of_host (host : Host) (h0 : 0 ≤ host.offset) (y m d : Nat)
    (hy1 : 1000 ≤ y) (hy : y ≤ 9999) (hdate : isCalendarDate y m d) :
    formatDate host (isoDate y m d) =
      Outcome.returns (String.mk (Nat.toDigits 10 d ++ [space] ++ monthAbbreviation m ++
        ['.', space] ++ [Nat.digitChar (y / 10 % 10), Nat.digitChar (y % 10)])) := by
  unfold formatDate
  rw [formatDateChars_isoDate host h0 y m d hy1 hy hdate]

/-- C7 as stated fails: on a host on UTC `formatDate` does not render
`2024-06-27` as `27 Juin. 24` (the month is cut to three letters), and on a
host at UTC-5 it renders it as `26 Jui. 24`, the day before. -/
theorem formatDate_june_not_juin :
    formatDate hostUTC "2024-06-27" ≠ Outcome.returns "27 Juin. 24" ∧
    formatDate hostUTCMinus5 "2024-06-27" = Outcome.returns "26 Jui. 24" := by
  decide

/-- C7 amended: on a host whose time zone is at or east of UTC, `formatDate`
renders the date 27 June 2024 (input `2024-06-27`) as the display string
`27 Jui. 24`. -/
theorem formatDate_june_example (host : Host) (h0 : 0 ≤ host.offset) :
    formatDate host "2024-06-27" = Outcome.returns "27 Jui. 24" := by
  have hiso : isoDate 2024 5 27 = "2024-06-27" := by decide
  have hout : String.mk (Nat.toDigits 10 27 ++ [space] ++ monthAbbreviation 5 ++ ['.', space] ++
      [Nat.digitChar (2024 / 10 % 10), Nat.digitChar (2024 % 10)]) = "27 Jui. 24" := by decide
  have h := formatDate_shape_of_host host h0 2024 5 27 (by decide) (by decide)
    (by unfold isCalendarDate; decide)
  rw [hiso, hout] at h
  exact h

/-- Witness of C7 amended on a host at UTC+1. -/
theorem formatDate_june_example_witness :
    (0 : Int) ≤ hostUTCPlus1.offset ∧
    formatDate hostUTCPlus1 "2024-06-27" = Outcome.returns "27 Jui. 24" :=
  ⟨by decide, formatDate_june_example hostUTCPlus1 (by decide)⟩

/-- Every key of the table is free of spaces, is found again by the property
access, and has a month index below 12 as its value. -/
theorem keys_of_table : ∀ p ∈ MONTHS_TO_NUMBER,
    space ∉ p.1.toList ∧ getProperty MONTHS_TO_NUMBER (String.mk p.1.toList) = some (p.2 : Int) ∧
      p.2 < 12 := by
  decide

theorem decimalValue_two_le {y1 y0 : Char} (h1 : isDecimalDigit y1) (h0 : isDecimalDigit y0) :
    decimalValue [y1, y0] ≤ 99 := by
  unfold isDecimalDigit at h1 h0
  simp only [decimalValue, List.foldl]
  omega

/-- C5: on a string `<day> <abbr> <yy>` with single spaces, where `abbr` is a
key of `MONTHS_TO_NUMBER` with value `m`, `yy` is two decimal digits and
`day` is a decimal numeral of a day of month `m` of year 2000 + `yy`,
`parseDate` returns on every host the date (local midnight) of that day: its year is 2000 + `yy`,
its month index is `m` and its day of month is the value of `day`. -/
theorem parseDate_wellFormed (host : Host) (day : List Char) (abbr : String) (m : Nat) (y1 y0 : Char)
    (hday : isDecimal day) (hkey : (abbr, m) ∈ MONTHS_TO_NUMBER)
    (h1 : isDecimalDigit y1) (h0 : isDecimalDigit y0)
    (hdate : isCalendarDate (2000 + decimalValue [y1, y0]) m (decimalValue day)) :
    parseDate host (String.mk (day ++ [space] ++ abbr.toList ++ [space] ++ [y1, y0])) =
        dateOfFields host (some ((2000 + decimalValue [y1, y0] : Nat) : Int)) (some (m : Int))
          (some (decimalValue day : Int)) ∧
      getFullYear host (parseDate host (String.mk (day ++ [space] ++ abbr.toList ++ [space] ++ [y1, y0]))) =
        some ((2000 + decimalValue [y1, y0] : Nat) : Int) ∧
      getMonth host (parseDate host (String.mk (day ++ [space] ++ abbr.toList ++ [space] ++ [y1, y0]))) =
        some (m : Int) ∧
      getDate host (parseDate host (String.mk (day ++ [space] ++ abbr.toList ++ [space] ++ [y1, y0]))) =
        some (decimalValue day : Int) := by
  obtain ⟨hsp, hget, hm⟩ := keys_of_table (abbr, m) hkey
  have h99 := decimalValue_two_le h1 h0
  have h31 := day_le_31 hdate
  have hshape : day ++ [space] ++ abbr.toList ++ [space] ++ [y1, y0] =
      day ++ space :: (abbr.toList ++ space :: [y1, y0]) := by
    simp only [List.append_assoc, List.cons_append, List.nil_append]
  have hparse : parseDate host (String.mk (day ++ [space] ++ abbr.toList ++ [space] ++ [y1, y0])) =
      dateOfFields host (some ((2000 + decimalValue [y1, y0] : Nat) : Int)) (some (m : Int))
        (some (decimalValue day : Int)) := by
    unfold parseDate
    rw [toList_mk, hshape, parseDateChars_fields host day abbr.toList y1 y0 hday hsp h1 h0, hget]
  have hvalid := dateOfFields_valid host (y := 2000 + decimalValue [y1, y0]) (m := m)
    (d := decimalValue day) (by omega) (by omega) hm hdate.2.1 h31
  obtain ⟨f1, f2, f3⟩ := fields_of_makeDay host hdate
  rw [hparse]
  refine ⟨rfl, ?_, ?_, ?_⟩
  · rw [hvalid]; exact f1
  · rw [hvalid]; exact f2
  · rw [hvalid]; exact f3

/-- Witness of C5 on the string `05 Fév. 24`: 5 February 2024, on a host at
UTC-5. -/
theorem parseDate_wellFormed_witness :
    parseDate hostUTCMinus5
        (String.mk ("05".toList ++ [space] ++ "Fév.".toList ++ [space] ++ ['2', '4'])) =
        dateOfFields hostUTCMinus5 (some ((2000 + decimalValue ['2', '4'] : Nat) : Int))
          (some ((1 : Nat) : Int)) (some (decimalValue "05".toList : Int)) ∧
      getFullYear hostUTCMinus5 (parseDate hostUTCMinus5
        (String.mk ("05".toList ++ [space] ++ "Fév.".toList ++ [space] ++ ['2', '4']))) =
        some ((2000 + decimalValue ['2', '4'] : Nat) : Int) ∧
      getMonth hostUTCMinus5 (parseDate hostUTCMinus5
        (String.mk ("05".toList ++ [space] ++ "Fév.".toList ++ [space] ++ ['2', '4']))) =
        some ((1 : Nat) : Int) ∧
      getDate hostUTCMinus5 (parseDate hostUTCMinus5
        (String.mk ("05".toList ++ [space] ++ "Fév.".toList ++ [space] ++ ['2', '4']))) =
        some (decimalValue "05".toList : Int) :=
  parseDate_wellFormed hostUTCMinus5 "05".toList "Fév." 1 '2' '4'
    (by unfold isDecimal isDecimalDigit; decide)
    (by decide) (by unfold isDecimalDigit; decide) (by unfold isDecimalDigit; decide)
    (by unfold isCalendarDate; decide)

/-! ## Strings without a space -/

theorem dateOfFields_nan_month (host : Host) (year day : Option Int) :
    dateOfFields host year none day = none := by
  cases year <;> cases day <;> rfl

theorem undefined_is_no_key :
    getProperty MONTHS_TO_NUMBER (String.mk (stringOrUndefined none)) = none := by
  decide

theorem parseDateChars_no_space (host : Host) (s : List Char) (h : space ∉ s) :
    getProperty MONTHS_TO_NUMBER (String.mk (stringOrUndefined (split space s)[1]?)) = none ∧
      parseDateChars host s = none := by
  have hsplit := split_of_no_sep space s h
  have hkey : getProperty MONTHS_TO_NUMBER (String.mk (stringOrUndefined (split space s)[1]?)) =
      none := by
    rw [hsplit]
    exact undefined_is_no_key
  refine ⟨hkey, ?_⟩
  unfold parseDateChars
  simp only [hkey]
  exact dateOfFields_nan_month host _ _

theorem pattern_no_space (s : List Char) (h : matchesTestPattern s = true)
    (h4 : s[4]? = some '-') (h7 : s[7]? = some '-') : space ∉ s := by
  unfold matchesTestPattern at h
  split at h
  · rename_i a b c d s1 e f s2 g k
    simp only [List.getElem?_cons_succ, List.getElem?_cons_zero, Option.some.injEq] at h4 h7
    subst h4 h7
    simp only [Bool.and_eq_true, Bool.or_eq_true, decide_eq_true_eq] at h
    obtain ⟨⟨⟨⟨⟨⟨hab, hc⟩, hd⟩, -⟩, hef⟩, -⟩, hgk⟩ := h
    have ns : space.toNat = 32 := rfl
    intro hmem
    simp only [List.mem_cons, List.mem_singleton, List.mem_nil_iff, or_false] at hmem
    rcases hmem with e | e | e | e | e | e | e | e | e | e
    · rcases hab with ⟨x, -⟩ | ⟨x, -⟩ <;> rw [← e] at x <;> exact absurd x (by decide)
    · rcases hab with ⟨-, x⟩ | ⟨-, x⟩ <;> rw [← e] at x <;> exact absurd x (by decide)
    · rw [← e, ns] at hc; omega
    · rw [← e, ns] at hd; omega
    · exact absurd e (by decide)
    · rcases hef with ⟨⟨x, -⟩, -⟩ | ⟨⟨x, -⟩, -⟩ <;> rw [← e] at x <;> exact absurd x (by decide)
    · rcases hef with ⟨⟨-, x⟩, -⟩ | ⟨⟨-, x⟩, -⟩ <;> rw [← e, ns] at x <;> omega
    · exact absurd e (by decide)
    · rcases hgk with (⟨⟨x, -⟩, -⟩ | ⟨⟨x | x, -⟩, -⟩) | ⟨⟨x, -⟩, -⟩ <;> rw [← e] at x <;>
        exact absurd x (by decide)
    · rcases hgk with (⟨⟨-, x⟩, -⟩ | ⟨⟨-, x⟩, -⟩) | ⟨⟨-, x⟩, -⟩ <;> rw [← e, ns] at x <;> omega
  · exact absurd h (by decide)

/-- C10: `parseDate` is total, and on every host and every string without a space character
the month lookup in `MONTHS_TO_NUMBER` finds no entry and the result is an
Invalid Date, so that the comparator `parseDate(a) - parseDate(b)` is `NaN`
on every pair of such strings; the `YYYY-MM-DD` strings matched by the
regular expression of the ordering test (the two separators being `-`) are
such strings. -/
theorem parseDate_without_space (host : Host) (a b : String) (ha : space ∉ a.toList) (hb : space ∉ b.toList) :
    getProperty MONTHS_TO_NUMBER (String.mk (stringOrUndefined (split space a.toList)[1]?)) = none ∧
    parseDate host a = none ∧ parseDate host b = none ∧ compareDisplay host a b = none ∧
    ∀ s : String, matchesTestPattern s.toList = true → s.toList[4]? = some '-' →
      s.toList[7]? = some '-' →
      space ∉ s.toList ∧ parseDate host s = none ∧ compareDisplay host s a = none ∧
        compareDisplay host a s = none := by
  obtain ⟨ka, pa⟩ := parseDateChars_no_space host a.toList ha
  obtain ⟨-, pb⟩ := parseDateChars_no_space host b.toList hb
  have pa' : parseDate host a = none := pa
  have pb' : parseDate host b = none := pb
  refine ⟨ka, pa', pb', ?_, ?_⟩
  · unfold compareDisplay
    rw [pa', pb']
    rfl
  · intro s hs h4 h7
    have hsp := pattern_no_space s.toList hs h4 h7
    have ps : parseDate host s = none := (parseDateChars_no_space host s.toList hsp).2
    refine ⟨hsp, ps, ?_, ?_⟩
    · unfold compareDisplay
      rw [ps, pa']
      rfl
    · unfold compareDisplay
      rw [ps, pa']
      rfl

/-- Witness of C10 on the strings `2023-02-01` and `2023-01-01`. -/
theorem parseDate_without_space_witness :
    (space ∉ "2023-02-01".toList ∧ space ∉ "2023-01-01".toList ∧
      matchesTestPattern "2023-02-01".toList = true) ∧
    parseDate hostUTC "2023-02-01" = none ∧ parseDate hostUTC "2023-01-01" = none ∧
    compareDisplay hostUTC "2023-02-01" "2023-01-01" = none :=
  ⟨by decide,
    (parseDate_without_space hostUTC "2023-02-01" "2023-01-01" (by decide) (by decide)).2.1,
    (parseDate_without_space hostUTC "2023-02-01" "2023-01-01" (by decide) (by decide)).2.2.1,
    (parseDate_without_space hostUTC "2023-02-01" "2023-01-01" (by decide) (by decide)).2.2.2.1⟩

/-! ## The submit guard of the new-bill controller -/

theorem updateBill_effects (store : Store) (c : Controller) (bill : Bill) :
    ∃ rest, (updateBill store c bill).1.effects =
      c.effects ++ Effect.storeUpdate (mergeBillId c bill) :: rest := by
  unfold updateBill
  cases h : store.update (mergeBillId c bill) with
  | ok b => exact ⟨[Effect.navigate Route.Bills], by simp [h]⟩
  | error e => exact ⟨[], by simp [h]⟩

theorem selectFile_invalid (c : Controller) (file : File)
    (hfile : isAcceptable file.mediaType = false) :
    (selectFile c file).isFileValid = false ∧
      (selectFile c file).state = SubmissionState.FileInvalid ∧
      (selectFile c file).effects = c.effects := by
  unfold selectFile
  rw [hfile]
  exact ⟨rfl, rfl, rfl⟩

theorem submit_refused (store : Store) (k : Controller) (fields : FormFields)
    (hk : k.state ≠ SubmissionState.FileValid) : submit store k fields = (k, none) := by
  unfold submit
  split
  · rename_i hv
    exact absurd hv hk
  · rfl

/-- C8: after the selection of a file whose declared media type is outside
the allow-set, `isFileValid` is false and the state is `FileInvalid`; a submit
attempted then, or from any controller in the state `FileInvalid` or `NoFile`,
performs no effect (no Store call, no `onNavigate`) and leaves the controller
as it is; a submit that performs an effect started from `FileValid`, and from
`FileValid` a submit whose `create` resolves goes on to `update` of the
Store. -/
theorem submit_guard (store : Store) (c : Controller) (file : File) (fields : FormFields)
    (hfile : isAcceptable file.mediaType = false) :
    (selectFile c file).isFileValid = false ∧
    (selectFile c file).state = SubmissionState.FileInvalid ∧
    (submit store (selectFile c file) fields).1.effects = c.effects ∧
    (∀ k : Controller, k.state = SubmissionState.FileInvalid ∨ k.state = SubmissionState.NoFile →
      submit store k fields = (k, none)) ∧
    (∀ k : Controller, (submit store k fields).1.effects ≠ k.effects →
      k.state = SubmissionState.FileValid) ∧
    (∀ k : Controller, k.state = SubmissionState.FileValid →
      ∀ created, store.create (assembleBill k fields) = Except.ok created →
      ∃ merged rest, (submit store k fields).1.effects =
        k.effects ++ Effect.storeCreate (assembleBill k fields) ::
          Effect.storeUpdate merged :: rest) := by
  obtain ⟨h1, h2, h3⟩ := selectFile_invalid c file hfile
  refine ⟨h1, h2, ?_, ?_, ?_, ?_⟩
  · rw [submit_refused store _ fields (by rw [h2]; decide)]
    exact h3
  · intro k hk
    apply submit_refused
    rcases hk with hk | hk <;> rw [hk] <;> decide
  · intro k hk
    by_contra hstate
    exact hk (by rw [submit_refused store k fields hstate])
  · intro k hk created hcreate
    obtain ⟨rest, hupd⟩ := updateBill_effects store
      (Controller.mk SubmissionState.Submitting k.isFileValid k.fileName k.fileUrl k.billId
        k.email (k.effects ++ [Effect.storeCreate (assembleBill k fields)])) created
    refine ⟨mergeBillId
      (Controller.mk SubmissionState.Submitting k.isFileValid k.fileName k.fileUrl k.billId
        k.email (k.effects ++ [Effect.storeCreate (assembleBill k fields)])) created, rest, ?_⟩
    unfold submit
    rw [hk]
    simp only [createBill, hcreate]
    rw [hupd]
    simp only [List.append_assoc, List.singleton_append]

/-- Witness of C8 on the file `test.pdf` of type `application/pdf`. -/
theorem submit_guard_witness :
    isAcceptable (some "application/pdf") = false ∧
    (selectFile freshController { name := "test.pdf", mediaType := some "application/pdf" }).isFileValid
      = false ∧
    (submit echoStore
      (selectFile freshController { name := "test.pdf", mediaType := some "application/pdf" })
      sampleFields).1.effects = [] :=
  ⟨by decide,
    (submit_guard echoStore freshController
      { name := "test.pdf", mediaType := some "application/pdf" } sampleFields (by decide)).1,
    (submit_guard echoStore freshController
      { name := "test.pdf", mediaType := some "application/pdf" } sampleFields (by decide)).2.2.1⟩

end Billed
